import Mathlib

/-!
Shallow embedding of the repository's content-selection, context-budgeting,
URL-parsing and LLM-response-recovery logic (`app/content_filter.py`,
`app/github_fetcher.py`, `app/llm_client.py`, constants from `app/config.py`),
together with theorems settling the specification's claims about them.

Python strings are modelled as Lean `String` (a list of unicode code points,
matching Python's sequence-of-code-points view); Python lists as `List`,
dicts as association lists, integers as `Nat`/`Int` as appropriate.
-/

/- ── Python string primitives ──────────────────────────────────────── -/

/-- Python `str.lower()` restricted to ASCII letters (all table entries and
all inputs used in the claims are ASCII). -/
def pyLower (s : String) : String := String.mk (s.data.map Char.toLower)

/-- Whitespace characters stripped by Python `str.strip()` / matched by
regex `\s` (the ASCII / Latin-1 ones). -/
def isPyWs (c : Char) : Bool :=
  (9 ≤ c.toNat && c.toNat ≤ 13) || (28 ≤ c.toNat && c.toNat ≤ 31) ||
    c = ' ' || c = '\x85' || c = '\xa0'

/-- Python `str.strip()` on a list of characters. -/
def pyStripL (cs : List Char) : List Char :=
  ((cs.dropWhile isPyWs).reverse.dropWhile isPyWs).reverse

/-- Python `str.strip()`. -/
def pyStrip (s : String) : String := String.mk (pyStripL s.data)

/-- Python `s.split(sep)` for a one-character separator, on character
lists; the result is always non-empty. -/
def splitCharL (sep : Char) : List Char → List (List Char)
  | [] => [[]]
  | c :: rest =>
    if c = sep then [] :: splitCharL sep rest
    else
      match splitCharL sep rest with
      | p :: ps => (c :: p) :: ps
      | [] => [[c]]

/-- Python `s.split(sep)` for a one-character separator. -/
def pySplitChar (sep : Char) (s : String) : List String :=
  (splitCharL sep s.data).map String.mk

/-- Python `c in s` for a single character. -/
def pyContainsChar (s : String) (c : Char) : Bool := s.data.contains c

/-- Python `s[:n]` for `n ≥ 0`. -/
def pyTake (s : String) (n : Nat) : String := String.mk (s.data.take n)

/-- Index of the last `'.'` in a character list, if any. -/
def lastIndexOfDot : List Char → Option Nat
  | [] => none
  | c :: rest =>
    match lastIndexOfDot rest with
    | some i => some (i + 1)
    | none => if c = '.' then some 0 else none

/-- `os.path.splitext` on a separator-free filename: split at the last dot,
except that a run of leading dots never starts an extension. -/
def pySplitext (name : String) : String × String :=
  match lastIndexOfDot name.data with
  | none => (name, "")
  | some i =>
    if (name.data.take i).all (fun c => c = '.') then (name, "")
    else (String.mk (name.data.take i), String.mk (name.data.drop i))

/-- `os.path.basename` for forward-slash paths: the part after the last `/`. -/
def pyBasename (path : String) : String := (pySplitChar '/' path).getLastD ""

/-- Decimal digits of a natural number (fuel-based so it reduces in the
kernel); `pyStrNat n` is Python `str(n)` for `n ≥ 0`. -/
def natDigitsAux : Nat → Nat → List Char
  | 0, _ => []
  | fuel + 1, n =>
    if n < 10 then [Char.ofNat (48 + n)]
    else natDigitsAux fuel (n / 10) ++ [Char.ofNat (48 + n % 10)]

/-- Python `str(n)` for a natural number. -/
def pyStrNat (n : Nat) : String := String.mk (natDigitsAux (n + 1) n)

/- ── Skip rules (`content_filter.py`) ──────────────────────────────── -/

/-- Directories to always skip entirely. -/
def SKIP_DIRS : List String :=
  ["node_modules", "vendor", "dist", "build", ".git", "__pycache__",
   ".next", ".nuxt", ".output", ".cache", ".tox", ".nox", ".mypy_cache",
   ".ruff_cache", ".pytest_cache", ".eggs", "eggs", ".venv", "venv", "env",
   ".env", "site-packages", "coverage", "htmlcov", ".terraform", ".gradle",
   ".idea", ".vscode", "target", "out", "bin", "obj"]

/-- File extensions to always skip (binary / non-informative). -/
def SKIP_EXTENSIONS : List String :=
  [".png", ".jpg", ".jpeg", ".gif", ".ico", ".svg", ".bmp", ".webp", ".tiff",
   ".woff", ".woff2", ".ttf", ".otf", ".eot",
   ".pyc", ".pyo", ".pyd", ".so", ".dll", ".exe", ".o", ".a", ".lib",
   ".class", ".jar", ".war", ".ear",
   ".zip", ".tar", ".gz", ".bz2", ".xz", ".rar", ".7z",
   ".mp3", ".mp4", ".avi", ".mov", ".wav", ".flac",
   ".pdf", ".doc", ".docx", ".xls", ".xlsx", ".ppt", ".pptx",
   ".sqlite", ".sqlite3", ".db",
   ".map", ".min.js", ".min.css",
   ".DS_Store", ".lock"]

/-- Exact filenames to always skip. -/
def SKIP_FILES : List String :=
  ["package-lock.json", "yarn.lock", "pnpm-lock.yaml", "Pipfile.lock",
   "poetry.lock", "Cargo.lock", "composer.lock", "Gemfile.lock", "go.sum",
   "flake.lock", ".gitattributes", ".editorconfig", ".browserslistrc",
   "thumbs.db"]

/- ── Priority tiers (`content_filter.py`) ──────────────────────────── -/

/-- Tier 1: project overview. -/
def TIER_1_FILES : List String := ["readme.md", "readme.rst", "readme.txt", "readme"]

/-- Tier 2: package manifests. -/
def TIER_2_FILES : List String :=
  ["package.json", "pyproject.toml", "setup.py", "setup.cfg", "cargo.toml",
   "go.mod", "pom.xml", "build.gradle", "build.gradle.kts", "gemfile",
   "composer.json", "mix.exs", "project.clj", "requirements.txt",
   "requirements-dev.txt", "requirements_dev.txt", "pipfile", "environment.yml"]

/-- Tier 3: config / infrastructure files. -/
def TIER_3_FILES : List String :=
  ["dockerfile", "docker-compose.yml", "docker-compose.yaml", ".env.example",
   ".env.sample", "makefile", "procfile", "tsconfig.json", "webpack.config.js",
   "vite.config.ts", "vite.config.js", "next.config.js", "next.config.mjs",
   "rollup.config.js", "babel.config.js", ".babelrc", "jest.config.js",
   "jest.config.ts", "vitest.config.ts", "tox.ini", "noxfile.py", "justfile",
   "taskfile.yml", "vercel.json", "netlify.toml", "fly.toml", "render.yaml",
   "app.yaml", "serverless.yml", "cdk.json", "terraform.tf", "ansible.cfg"]

/-- Tier 4: source code entry-point basenames. -/
def TIER_4_BASENAMES : List String :=
  ["main", "app", "index", "server", "cli", "run", "manage", "__main__",
   "wsgi", "asgi"]

/-- Source code extensions for tiers 4/5. -/
def SOURCE_EXTENSIONS : List String :=
  [".py", ".js", ".ts", ".jsx", ".tsx", ".go", ".rs", ".rb", ".java", ".kt",
   ".c", ".cpp", ".h", ".hpp", ".cs", ".swift", ".scala", ".clj", ".ex",
   ".exs", ".php", ".lua", ".r", ".jl", ".sh", ".bash", ".zsh", ".fish",
   ".sql", ".graphql", ".gql", ".proto"]

/-- Tier 6: supplementary docs. -/
def TIER_6_FILES : List String :=
  ["contributing.md", "changelog.md", "changes.md", "history.md", "authors.md",
   "code_of_conduct.md", "security.md", "license", "license.md", "license.txt",
   "notice"]

/- ── Filtering logic (`content_filter.py`) ─────────────────────────── -/

/-- The filename of a path inside `_should_skip`: the last segment of the
lower-cased path split on `/`. -/
def skipFilename (path : String) : String :=
  (pySplitChar '/' (pyLower path)).getLastD ""

/-- `_should_skip`: true if this file/dir path is excluded from context
(any directory segment in `SKIP_DIRS`, or the filename in `SKIP_FILES`,
or its `splitext` extension in `SKIP_EXTENSIONS`). -/
def _should_skip (path : String) : Bool :=
  if (pySplitChar '/' (pyLower path)).dropLast.any
      (fun part => SKIP_DIRS.contains part) then true
  else if SKIP_FILES.contains (skipFilename path) then true
  else if SKIP_EXTENSIONS.contains (pySplitext (skipFilename path)).2 then true
  else false

/-- `_get_tier`: priority tier (1 = highest, 6 = lowest, 99 = skip). -/
def _get_tier (path : String) (size : Nat) : Nat :=
  if TIER_1_FILES.contains (pyLower (pyBasename path)) then 1
  else if TIER_2_FILES.contains (pyLower (pyBasename path)) then 2
  else if TIER_3_FILES.contains (pyLower (pyBasename path)) then 3
  else if TIER_4_BASENAMES.contains (pySplitext (pyLower (pyBasename path))).1
          && SOURCE_EXTENSIONS.contains (pySplitext (pyLower (pyBasename path))).2 then 4
  else if pyLower (pyBasename path) == "__init__.py" && !(pyContainsChar path '/') then 4
  else if SOURCE_EXTENSIONS.contains (pySplitext (pyLower (pyBasename path))).2 then 5
  else if TIER_6_FILES.contains (pyLower (pyBasename path)) then 6
  else 99

/- ── Configuration (`config.py`) ───────────────────────────────────── -/

/-- Approximate character budget for the LLM context window. -/
def MAX_CONTEXT_CHARS : Nat := 200000

/-- Max lines to include from the directory tree listing. -/
def MAX_TREE_LINES : Nat := 500

/-- Max lines to include per individual source file. -/
def MAX_FILE_LINES : Nat := 300

/- ── Data model ────────────────────────────────────────────────────── -/

/-- An entry of the GitHub tree: `{path, type, size}` (`size` defaults to 0
when absent, as in `item.get("size", 0)`). -/
structure TreeEntry where
  path : String
  type : String
  size : Nat
deriving DecidableEq, Repr

/-- A selected file entry: `{path, size, tier}`. -/
structure Candidate where
  path : String
  size : Nat
  tier : Nat
deriving DecidableEq, Repr

/-- Python's `"\n".join` / `", ".join`: concatenation with a separator. -/
def pyJoin (sep : String) : List String → String
  | [] => ""
  | [s] => s
  | s :: rest => s ++ sep ++ pyJoin sep rest

/-- The sort key order of `select_files`: Python tuple comparison on
`(tier, path)` — tier first, then case-sensitive lexicographic path. -/
def candLe (a b : Candidate) : Prop :=
  a.tier < b.tier ∨ (a.tier = b.tier ∧ a.path ≤ b.path)

instance : DecidableRel candLe := fun a b => by
  unfold candLe; infer_instance

instance : IsTotal Candidate candLe :=
  ⟨fun a b => by
    rcases Nat.lt_trichotomy a.tier b.tier with h | h | h
    · exact Or.inl (Or.inl h)
    · rcases le_total a.path b.path with hp | hp
      · exact Or.inl (Or.inr ⟨h, hp⟩)
      · exact Or.inr (Or.inr ⟨h.symm, hp⟩)
    · exact Or.inr (Or.inl h)⟩

instance : IsTrans Candidate candLe :=
  ⟨fun a b c hab hbc => by
    rcases hab with h1 | ⟨h1, h1'⟩
    · rcases hbc with h2 | ⟨h2, _⟩
      · exact Or.inl (h1.trans h2)
      · exact Or.inl (h2 ▸ h1)
    · rcases hbc with h2 | ⟨h2, h2'⟩
      · exact Or.inl (h1 ▸ h2)
      · exact Or.inr ⟨h1.trans h2, h1'.trans h2'⟩⟩

/-- The per-entry body of the `select_files` loop: `None` models `continue`. -/
def selCandidate (item : TreeEntry) : Option Candidate :=
  if item.type != "blob" then none
  else if _should_skip item.path then none
  else if _get_tier item.path item.size == 99 then none
  else some ⟨item.path, item.size, _get_tier item.path item.size⟩

/-- `select_files`: filter blobs through the skip/tier rules and sort by
`(tier, path)`. Python's stable `list.sort` is realized by insertion sort
with the non-strict key order, which is stable. -/
def select_files (tree : List TreeEntry) : List Candidate :=
  (tree.filterMap selCandidate).insertionSort candLe

/- ── Directory tree formatting (`content_filter.py`) ───────────────── -/

/-- `_format_size`: human-readable byte count. Python formats the quotient
as a double with `"%.1f"`; this model rounds the exact rational
`size/1024` (resp. `/1024²`) to one decimal with round-half-to-even,
which is the behaviour of `"%.1f"` up to double-rounding of the binary
representation. -/
def _format_size (size_bytes : Nat) : String :=
  let fmt1 := fun (num den : Nat) =>
    let n10 := num * 10
    let q := n10 / den
    let r := n10 % den
    let tenths := if 2 * r < den then q
      else if 2 * r > den then q + 1
      else if q % 2 = 0 then q else q + 1
    pyStrNat (tenths / 10) ++ "." ++ pyStrNat (tenths % 10)
  if size_bytes < 1024 then pyStrNat size_bytes ++ " B"
  else if size_bytes < 1024 * 1024 then fmt1 size_bytes 1024 ++ " KB"
  else fmt1 size_bytes (1024 * 1024) ++ " MB"

/-- The line-building loop of `format_tree`; `total` is `len(tree)`,
`nlines` the number of lines accumulated so far. -/
def formatTreeLines (total : Nat) : List TreeEntry → Nat → List String
  | [], _ => []
  | item :: rest, nlines =>
    let parts := pySplitChar '/' item.path
    if parts.dropLast.any (fun p => SKIP_DIRS.contains (pyLower p)) then
      formatTreeLines total rest nlines
    else
      let filename := pyLower (parts.getLastD "")
      let ext := (pySplitext filename).2
      if SKIP_EXTENSIONS.contains ext || SKIP_FILES.contains filename then
        formatTreeLines total rest nlines
      else
        let depth := parts.length - 1
        let indent := String.mk (List.replicate (2 * depth) ' ')
        let name := parts.getLastD ""
        let line :=
          if item.type == "tree" then indent ++ name ++ "/"
          else if item.size > 0 then
            indent ++ name ++ "  (" ++ _format_size item.size ++ ")"
          else indent ++ name
        if nlines + 1 ≥ MAX_TREE_LINES then
          [line, "  ... (truncated, " ++ pyStrNat total ++ " total entries)"]
        else line :: formatTreeLines total rest (nlines + 1)

/-- `format_tree`: clean indented directory tree string. -/
def format_tree (tree : List TreeEntry) : String :=
  pyJoin "\n" (formatTreeLines tree.length tree 0)

/- ── Context building (`content_filter.py`) ────────────────────────── -/

/-- Python `content.split("\n")`. -/
def pySplitNl (s : String) : List String := pySplitChar '\n' s

/-- `truncate_file_content`: truncate to a maximum number of lines
(`max_lines` defaults to `MAX_FILE_LINES` at the call sites). -/
def truncate_file_content (content : String) (max_lines : Nat) : String :=
  let lines := pySplitNl content
  if lines.length ≤ max_lines then content
  else
    pyJoin "\n" (lines.take max_lines) ++
      "\n\n... (truncated, " ++ pyStrNat lines.length ++ " total lines)"

/-- Repository metadata dict: the fields `build_context` reads, `none`
standing for an absent key (`topics` defaults to `[]`, `stars` to 0). -/
structure Metadata where
  name : Option String
  owner : Option String
  description : Option String
  language : Option String
  topics : List String
  stars : Nat
deriving Repr

/-- `_build_metadata_section`: repository metadata as a context section. -/
def _build_metadata_section (metadata : Metadata) : String :=
  let lines := ["=== REPOSITORY METADATA ===",
    "Name: " ++ metadata.name.getD "Unknown",
    "Owner: " ++ metadata.owner.getD "Unknown"]
  let lines := lines ++
    (match metadata.description with
     | some d => if d ≠ "" then ["Description: " ++ d] else []
     | none => [])
  let lines := lines ++
    (match metadata.language with
     | some l => if l ≠ "" then ["Primary Language: " ++ l] else []
     | none => [])
  let lines := lines ++
    (if metadata.topics ≠ [] then ["Topics: " ++ pyJoin ", " metadata.topics]
     else [])
  let lines := lines ++ ["Stars: " ++ pyStrNat metadata.stars, ""]
  pyJoin "\n" lines

/-- Python dict lookup `d[k]` / `k in d` on an association list. -/
def pyDictGet (d : List (String × String)) (k : String) : Option String :=
  (d.find? (fun p => p.1 == k)).map (·.2)

/-- A labelled file block `--- path ---\ncontent\n\n`. -/
def fileBlock (path content : String) : String :=
  "--- " ++ path ++ " ---\n" ++ content ++ "\n\n"

/-- A budget-truncated file block. -/
def truncFileBlock (path content : String) : String :=
  "--- " ++ path ++ " (truncated to fit budget) ---\n" ++ content ++ "\n\n"

/-- The omission summary line appended when the budget is exceeded. -/
def omitNotice (remaining : Nat) : String :=
  "... (" ++ pyStrNat remaining ++ " additional files omitted due to context budget)\n"

/-- `sum(1 for f in selected_files if f["path"] in file_contents and
f["path"] != path)`. -/
def remainingCount (selected : List Candidate) (bodies : List (String × String))
    (path : String) : Nat :=
  (selected.filter
    (fun f => (pyDictGet bodies f.path).isSome && f.path != path)).length

/-- The file-contents loop of `build_context`: emits one section per kept
block; on budget overflow emits the optional tier ≤ 3 hard-truncated block,
then the omission notice, and stops (`break`). `selected` is the full
candidate list (used by the `remaining` count), `total` the running
character count. -/
def ctxLoop (selected : List Candidate) (bodies : List (String × String)) :
    List Candidate → Nat → List String
  | [], _ => []
  | c :: rest, total =>
    match pyDictGet bodies c.path with
    | none => ctxLoop selected bodies rest total
    | some content₀ =>
      let content := truncate_file_content content₀ MAX_FILE_LINES
      let block := fileBlock c.path content
      if total + block.length > MAX_CONTEXT_CHARS then
        (if c.tier ≤ 3 then
          let available : Int := (MAX_CONTEXT_CHARS : Int) - (total : Int) - 200
          if available > 500 then
            [truncFileBlock c.path (pyTake content available.toNat)]
          else []
        else []) ++ [omitNotice (remainingCount selected bodies c.path)]
      else block :: ctxLoop selected bodies rest (total + block.length)

/-- The list of sections assembled by `build_context`, in order. -/
def buildContextSections (metadata : Metadata) (tree : List TreeEntry)
    (file_contents : List (String × String)) (selected_files : List Candidate) :
    List String :=
  let meta_section := _build_metadata_section metadata
  let tree_section := "=== DIRECTORY STRUCTURE ===\n" ++ format_tree tree ++ "\n"
  let header := "=== FILE CONTENTS ===\n"
  let total := meta_section.length + tree_section.length + header.length
  [meta_section, tree_section, header] ++
    ctxLoop selected_files file_contents selected_files total

/-- `build_context`: the final context string, `"\n".join(sections)`. -/
def build_context (metadata : Metadata) (tree : List TreeEntry)
    (file_contents : List (String × String)) (selected_files : List Candidate) :
    String :=
  pyJoin "\n" (buildContextSections metadata tree file_contents selected_files)

/- ── Further string helpers ────────────────────────────────────────── -/

/-- Concatenation of character-list parts with a one-character separator
(the character-level view of `pyJoin`). -/
def joinCharL (sep : Char) : List (List Char) → List Char
  | [] => []
  | [p] => p
  | p :: ps => p ++ sep :: joinCharL sep ps

/-- The total character count of a list of strings. -/
def sumLen (l : List String) : Nat := (l.map String.length).sum

/-- Python `str.rstrip(c)` for a one-character argument. -/
def pyRstrip (c : Char) (s : String) : String :=
  String.mk (s.data.reverse.dropWhile (fun x => x = c)).reverse

/-- Python `str.strip(c)` for a one-character argument (both ends). -/
def pyStripChar (c : Char) (s : String) : String :=
  String.mk ((s.data.dropWhile (fun x => x = c)).reverse.dropWhile
    (fun x => x = c)).reverse

/-- Python `s.endswith(suffix)`. -/
def pyEndsWith (s suffix : String) : Bool := suffix.data.isSuffixOf s.data

/-- First index of a character in a list, if any. -/
def firstIdxOf (c : Char) : List Char → Option Nat
  | [] => none
  | x :: rest => if x = c then some 0 else (firstIdxOf c rest).map (· + 1)

/-- Last index of a character in a list, if any. -/
def lastIdxOf (c : Char) : List Char → Option Nat
  | [] => none
  | x :: rest =>
    match lastIdxOf c rest with
    | some i => some (i + 1)
    | none => if x = c then some 0 else none

/- ── URL parsing (`github_fetcher.py`) ─────────────────────────────── -/

/-- Characters CPython allows in a URL scheme after the first. -/
def isSchemeChar (c : Char) : Bool := c.isAlphanum || c = '+' || c = '-' || c = '.'

/-- Remove a leading `scheme:` as CPython `urlsplit` does: there is a colon
at index `> 0`, the prefix starts with an ASCII letter and consists of
scheme characters. -/
def stripScheme (cs : List Char) : List Char :=
  let before := cs.takeWhile (fun c => c ≠ ':')
  if before.length < cs.length && !before.isEmpty &&
      (before.headD ' ').isAlpha && before.all isSchemeChar then
    cs.drop (before.length + 1)
  else cs

/-- The `hostname` of a netloc per CPython `_hostinfo`/`hostname`: take the
part after the last `@`; if it contains `[`, the host is what stands
between the first `[` and the following `]`, otherwise everything before
the first `:`; `none` when empty, else lower-cased up to a `%` (a scope
zone is kept verbatim). `.lower()` is modelled on its ASCII part, which on
the ASCII inputs the theorems quantify over is exact. -/
def pyHostname (netloc : List Char) : Option String :=
  let hostinfo := (netloc.reverse.takeWhile (fun c => c ≠ '@')).reverse
  let host :=
    if hostinfo.contains '[' then
      ((hostinfo.dropWhile (fun c => c ≠ '[')).drop 1).takeWhile (fun c => c ≠ ']')
    else hostinfo.takeWhile (fun c => c ≠ ':')
  if host.isEmpty then none
  else
    let pre := host.takeWhile (fun c => c ≠ '%')
    some (pyLower (String.mk pre) ++ String.mk (host.drop pre.length))

/-- The URL as CPython 3.11 `urlsplit` preprocesses it: leading C0
control/space characters stripped, every tab, carriage return and newline
removed. -/
def urlClean (s : String) : List Char :=
  (s.data.dropWhile (fun c => c.toNat ≤ 32)).filter
    (fun c => !(c = '\t' || c = '\r' || c = '\n'))

/-- The netloc after a leading `//`: up to the next `/`, `?` or `#`. -/
def urlNetloc (rest : List Char) : List Char :=
  (rest.drop 2).takeWhile (fun c => !(c = '/' || c = '?' || c = '#'))

/-- The lower-cased scheme `urlsplit` recognises (empty when none): a
colon at index `> 0` whose prefix starts with an ASCII letter and consists
of scheme characters. -/
def schemeOf (cs : List Char) : String :=
  let before := cs.takeWhile (fun c => c ≠ ':')
  if before.length < cs.length && !before.isEmpty &&
      (before.headD ' ').isAlpha && before.all isSchemeChar then
    pyLower (String.mk before)
  else ""

/-- `urllib.parse.uses_params`: the schemes for which `urlparse` splits
`;params` off the path. -/
def usesParams : List String :=
  ["", "ftp", "hdl", "prospero", "http", "imap", "https", "shttp", "rtsp",
   "rtsps", "rtspu", "sip", "sips", "mms", "sftp", "tel"]

/-- CPython `_splitparams`, keeping the path part: when the path contains a
`/`, cut at the first `;` of the last segment (if any); otherwise cut at
the first `;`. -/
def splitParamsPath (p : List Char) : List Char :=
  if p.contains '/' then
    let lastSeg := (p.reverse.takeWhile (fun c => c ≠ '/')).reverse
    if lastSeg.contains ';' then
      p.take (p.length - lastSeg.length) ++ lastSeg.takeWhile (fun c => c ≠ ';')
    else p
  else p.takeWhile (fun c => c ≠ ';')

/-- The `urlparse` params split: applied when the scheme uses params and a
`;` occurs in the path. -/
def ghParamCut (scheme : String) (p : List Char) : List Char :=
  if usesParams.contains scheme && p.contains ';' then splitParamsPath p else p

/-- ASCII hex digit (`ipaddress._BaseV6._HEX_DIGITS`). -/
def isHexDigitPy (c : Char) : Bool :=
  ('0' ≤ c && c ≤ '9') || ('a' ≤ c && c ≤ 'f') || ('A' ≤ c && c ≤ 'F')

/-- `ipaddress._BaseV6._parse_hextet` succeeds: nonempty, hex digits only,
at most 4 of them. -/
def hextetOk (p : List Char) : Bool :=
  !p.isEmpty && p.all isHexDigitPy && p.length ≤ 4

/-- Decimal value of a digit list (only used under `octetOk`). -/
def octetVal (p : List Char) : Nat := p.foldl (fun a c => a * 10 + (c.toNat - 48)) 0

/-- `ipaddress._BaseV4._parse_octet` succeeds: nonempty ASCII digits, at
most 3, no leading zero (except `0` itself), value at most 255. -/
def octetOk (p : List Char) : Bool :=
  !p.isEmpty && p.all Char.isDigit && p.length ≤ 3 &&
  (p == ['0'] || p.headD '0' ≠ '0') && octetVal p ≤ 255

/-- `ipaddress.IPv4Address` accepts the string: no `/`, exactly four
octets. -/
def isIPv4Str (h : List Char) : Bool :=
  if h.contains '/' then false
  else
    let octets := splitCharL '.' h
    octets.length == 4 && octets.all octetOk

/-- Index of the first empty list among a list of lists. -/
def firstEmptyIdx : List (List Char) → Option Nat
  | [] => none
  | p :: r => if p.isEmpty then some 0 else (firstEmptyIdx r).map (· + 1)

/-- `ipaddress._BaseV6._ip_int_from_string` succeeds on the (scope-free)
address: split on `:` into at least 3 parts; an IPv4-style last part is
validated and replaced by two hextets; at most 9 parts; at most one empty
inner part (the `::`), an empty endpoint only directly beside it; without
`::` exactly 8 nonempty parts; and every part actually parsed is a valid
hextet. -/
def ipv6CoreOk (ip : List Char) : Bool :=
  if ip.isEmpty then false
  else
    let parts0 := splitCharL ':' ip
    if parts0.length < 3 then false
    else
      match (if (parts0.getLastD []).contains '.' then
              (if isIPv4Str (parts0.getLastD []) then
                some (parts0.dropLast ++ [['0'], ['0']]) else none)
             else some parts0) with
      | none => false
      | some parts =>
        let n := parts.length
        if n > 9 then false
        else
          let mids := (parts.drop 1).dropLast
          match firstEmptyIdx mids with
          | some i0 =>
            if (mids.drop (i0 + 1)).any List.isEmpty then false
            else
              let si := i0 + 1
              let headE := (parts.headD ['x']).isEmpty
              let lastE := (parts.getLastD ['x']).isEmpty
              if headE && si ≠ 1 then false
              else if lastE && si ≠ n - 2 then false
              else
                let hi := if headE then si - 1 else si
                let lo := if lastE then n - si - 2 else n - si - 1
                if 8 ≤ hi + lo then false
                else (parts.take hi).all hextetOk && (parts.drop (n - lo)).all hextetOk
          | none =>
            n == 8 && !(parts.headD []).isEmpty && !(parts.getLastD []).isEmpty &&
              parts.all hextetOk

/-- `ipaddress.IPv6Address` accepts the string: no `/`, an optional
`%zone` (nonempty, no further `%`), and a valid address body. -/
def isIPv6Str (h : List Char) : Bool :=
  if h.contains '/' then false
  else
    let pre := h.takeWhile (fun c => c ≠ '%')
    match h.drop pre.length with
    | [] => ipv6CoreOk pre
    | _ :: scope => !scope.isEmpty && !scope.contains '%' && ipv6CoreOk pre

/-- `re.match(r"\Av[a-fA-F0-9]+\..+\Z")`: `v`, a nonempty hex run, a dot,
then at least one more character (`.` does not match a newline). -/
def isIPvFutureL (h : List Char) : Bool :=
  match h with
  | 'v' :: rest =>
    let hexs := rest.takeWhile isHexDigitPy
    (match rest.drop hexs.length with
     | '.' :: tail => !hexs.isEmpty && !tail.isEmpty && tail.all (fun c => c ≠ '\n')
     | _ => false)
  | _ => false

/-- `urllib.parse._check_bracketed_host` passes: an IPvFuture literal when
the host starts with `v`, otherwise a valid IPv6 (not IPv4) address per
`ipaddress.ip_address`. -/
def checkBracketedHost (h : List Char) : Bool :=
  match h with
  | 'v' :: _ => isIPvFutureL h
  | _ => if isIPv4Str h then false else isIPv6Str h

/-- `netloc.partition('[')[2].partition(']')[0]`: between the first `[`
and the next `]`. -/
def bracketedHostOf (netloc : List Char) : List Char :=
  ((netloc.dropWhile (fun c => c ≠ '[')).drop 1).takeWhile (fun c => c ≠ ']')

/-- `urlsplit` raises `ValueError` on this URL: the netloc has a `[`
without `]` (or vice versa), or its bracketed host fails
`_check_bracketed_host`. (The NFKC netloc check only concerns non-ASCII
netlocs and is outside the ASCII scope of the theorems.) -/
def urlsplitRaises (s : String) : Bool :=
  let rest := stripScheme (urlClean s)
  if rest.take 2 = ['/', '/'] then
    let netloc := urlNetloc rest
    if (netloc.contains '[' && !netloc.contains ']') ||
        (netloc.contains ']' && !netloc.contains '[') then true
    else if netloc.contains '[' && netloc.contains ']' then
      !checkBracketedHost (bracketedHostOf netloc)
    else false
  else false

/-- The `(hostname, path)` components of `urllib.parse.urlparse` when it
does not raise: a netloc is present only after a leading `//` (after
scheme removal) and extends to the next `/`, `?` or `#`; the path extends
from there to the next `?` or `#`, with `;params` split off per
`uses_params`. -/
def pyUrlparts (s : String) : Option String × String :=
  if (stripScheme (urlClean s)).take 2 = ['/', '/'] then
    (pyHostname (urlNetloc (stripScheme (urlClean s))),
     String.mk (ghParamCut (schemeOf (urlClean s))
       ((((stripScheme (urlClean s)).drop 2).drop
        (urlNetloc (stripScheme (urlClean s))).length).takeWhile
          (fun c => !(c = '?' || c = '#')))))
  else
    (none, String.mk (ghParamCut (schemeOf (urlClean s))
      ((stripScheme (urlClean s)).takeWhile
        (fun c => !(c = '?' || c = '#')))))

/-- `urllib.parse.urlparse` as `parse_github_url` consumes it: `none`
models the `ValueError` its caller does not catch. -/
def pyUrlparse (s : String) : Option (Option String × String) :=
  if urlsplitRaises s then none else some (pyUrlparts s)

/-- A character of the class `[\w.\-]`, on ASCII input. Python `\w` on
`str` is Unicode-wide (alphanumeric or `_`); the model covers its ASCII
restriction, and the theorems quantify over ASCII URLs only, where the
two coincide. -/
def isNameChar (c : Char) : Bool := c.isAlphanum || c = '_' || c = '.' || c = '-'

/-- `re.match(r"^[\w.\-]+$", s) is not None`: one or more name characters
spanning the whole string — or, by Python `$` semantics, spanning
everything up to a single final newline. -/
def nameMatches (s : String) : Bool :=
  (!s.data.isEmpty && s.data.all isNameChar) ||
  (s.data.getLast? == some '\n' && !s.data.dropLast.isEmpty &&
    s.data.dropLast.all isNameChar)

/-- Error message of the hostname check. -/
def GITHUB_URL_ERR_HOST : String := "URL must be a github.com repository URL."

/-- Error message of the owner/repo extraction check. -/
def GITHUB_URL_ERR_FORMAT : String :=
  "Could not extract owner/repo from the URL. Expected format: https://github.com/\x7bowner\x7d/\x7brepo\x7d"

/-- Error message of the owner/repo name sanity check. -/
def GITHUB_URL_ERR_NAME (owner repo : String) : String :=
  "Invalid owner or repo name: " ++ owner ++ "/" ++ repo

/-- The URL cleanup of `parse_github_url`: strip surrounding whitespace,
strip trailing slashes, remove one trailing `.git`. -/
def ghCleanUrl (url0 : String) : String :=
  let url1 := pyRstrip '/' (pyStrip url0)
  if pyEndsWith url1 ".git" then pyTake url1 (url1.length - 4) else url1

/-- The non-empty path segments of a cleaned URL:
`[p for p in parsed.path.strip("/").split("/") if p]`. -/
def ghSegments (url : String) : List String :=
  (pySplitChar '/' (pyStripChar '/' (pyUrlparts url).2)).filter (fun p => p ≠ "")

/-- `parse_github_url`: extract `(owner, repo)` from a GitHub URL, or a
`GitHubFetchError` modelled as `some (.error (message, statusCode))`;
`none` models the uncaught `ValueError` that `urlparse` raises on bad
bracket netlocs and that propagates out of the function. -/
def parse_github_url (url0 : String) :
    Option (Except (String × Nat) (String × String)) :=
  let url := ghCleanUrl url0
  if urlsplitRaises url then none
  else some (
    if (pyUrlparts url).1 ≠ some "github.com" ∧
        (pyUrlparts url).1 ≠ some "www.github.com" then
      .error (GITHUB_URL_ERR_HOST, 400)
    else if (ghSegments url).length < 2 then
      .error (GITHUB_URL_ERR_FORMAT, 400)
    else if !nameMatches ((ghSegments url).getD 0 "") ||
        !nameMatches ((ghSegments url).getD 1 "") then
      .error (GITHUB_URL_ERR_NAME ((ghSegments url).getD 0 "")
        ((ghSegments url).getD 1 ""), 400)
    else .ok ((ghSegments url).getD 0 "", (ghSegments url).getD 1 ""))

/- ── JSON values and `json.loads` (`llm_client.py` collaborator) ───── -/

/-- A parsed JSON value. Numbers keep their source lexeme (the claims never
compare numbers across different spellings, so no float model is needed);
objects keep their members in source order. -/
inductive JsonValue where
  | null
  | bool (b : Bool)
  | num (lexeme : String)
  | str (s : String)
  | arr (elems : List JsonValue)
  | obj (members : List (String × JsonValue))
deriving BEq, Repr

/-- JSON inter-token whitespace (the set `json.loads` skips). -/
def jsonWs (cs : List Char) : List Char :=
  cs.dropWhile (fun c => c = ' ' || c = '\t' || c = '\n' || c = '\r')

/-- Value of a hex digit. -/
def hexVal (c : Char) : Option Nat :=
  if '0' ≤ c ∧ c ≤ '9' then some (c.toNat - 48)
  else if 'a' ≤ c ∧ c ≤ 'f' then some (c.toNat - 87)
  else if 'A' ≤ c ∧ c ≤ 'F' then some (c.toNat - 55)
  else none

/-- JSON single-character escapes. -/
def escChar (c : Char) : Option Char :=
  if c = '"' then some '"'
  else if c = '\\' then some '\\'
  else if c = '/' then some '/'
  else if c = 'b' then some '\x08'
  else if c = 'f' then some '\x0c'
  else if c = 'n' then some '\n'
  else if c = 'r' then some '\r'
  else if c = 't' then some '\t'
  else none

/-- Body of a JSON string after the opening quote: `(content, rest)`. Raw
control characters are rejected (strict `json.loads`); `\uXXXX` becomes the
code point (surrogate pairing outside the model). Fuelled so it reduces in
the kernel. -/
def parseJStrAux : Nat → List Char → Option (List Char × List Char)
  | 0, _ => none
  | fuel + 1, cs =>
    match cs with
    | [] => none
    | '"' :: rest => some ([], rest)
    | '\\' :: 'u' :: h1 :: h2 :: h3 :: h4 :: rest =>
      (match hexVal h1, hexVal h2, hexVal h3, hexVal h4 with
       | some a, some b, some c, some d =>
         (parseJStrAux fuel rest).map
           (fun p => (Char.ofNat (a * 4096 + b * 256 + c * 16 + d) :: p.1, p.2))
       | _, _, _, _ => none)
    | '\\' :: e :: rest =>
      (match escChar e with
       | some c => (parseJStrAux fuel rest).map (fun p => (c :: p.1, p.2))
       | none => none)
    | c :: rest =>
      if c.toNat < 32 then none
      else (parseJStrAux fuel rest).map (fun p => (c :: p.1, p.2))

/-- JSON integer part: `0` or a nonzero digit followed by digits. -/
def parseJInt : List Char → Option (List Char × List Char)
  | '0' :: r => some (['0'], r)
  | c :: r =>
    if c.isDigit && c ≠ '0' then
      some (c :: r.takeWhile Char.isDigit, r.dropWhile Char.isDigit)
    else none
  | [] => none

/-- JSON fraction part `\.\d+` (empty when absent). -/
def parseJFrac (cs : List Char) : List Char × List Char :=
  match cs with
  | '.' :: r =>
    if (r.takeWhile Char.isDigit).isEmpty then ([], cs)
    else ('.' :: r.takeWhile Char.isDigit, r.dropWhile Char.isDigit)
  | _ => ([], cs)

/-- JSON exponent part `[eE][-+]?\d+` (empty when absent). -/
def parseJExp (cs : List Char) : List Char × List Char :=
  match cs with
  | e :: r =>
    if e = 'e' || e = 'E' then
      let sr : List Char × List Char :=
        match r with
        | '+' :: r2 => (['+'], r2)
        | '-' :: r2 => (['-'], r2)
        | _ => ([], r)
      if (sr.2.takeWhile Char.isDigit).isEmpty then ([], cs)
      else (e :: (sr.1 ++ sr.2.takeWhile Char.isDigit), sr.2.dropWhile Char.isDigit)
    else ([], cs)
  | [] => ([], cs)

/-- A JSON number lexeme `-?(0|[1-9]\d*)(\.\d+)?([eE][-+]?\d+)?`. -/
def parseJNum (cs : List Char) : Option (List Char × List Char) :=
  let sc : List Char × List Char :=
    match cs with
    | '-' :: r => (['-'], r)
    | _ => ([], cs)
  match parseJInt sc.2 with
  | some (ip, r1) =>
    let fp := parseJFrac r1
    let ep := parseJExp fp.2
    some (sc.1 ++ ip ++ fp.1 ++ ep.1, ep.2)
  | none => none

/-- The three mutually recursive parsing modes of `json.loads` — value,
object members, array elements — defined together by recursion on fuel so
everything reduces in the kernel; each recursive call happens strictly
after consuming input, so any fuel `≥ 2·|input| + 2` gives the fixpoint.
As in CPython with the default `parse_constant`, the non-standard
constants `NaN`, `Infinity` and `-Infinity` are accepted as values (they
become floats there; here they keep their lexeme like every number). -/
def jsonFns : Nat →
    (List Char → Option (JsonValue × List Char)) ×
    (List Char → Option (List (String × JsonValue) × List Char)) ×
    (List Char → Option (List JsonValue × List Char))
  | 0 => (fun _ => none, fun _ => none, fun _ => none)
  | fuel + 1 =>
    (fun cs =>
      match jsonWs cs with
      | 'n' :: 'u' :: 'l' :: 'l' :: r => some (JsonValue.null, r)
      | 't' :: 'r' :: 'u' :: 'e' :: r => some (JsonValue.bool true, r)
      | 'f' :: 'a' :: 'l' :: 's' :: 'e' :: r => some (JsonValue.bool false, r)
      | 'N' :: 'a' :: 'N' :: r => some (JsonValue.num "NaN", r)
      | 'I' :: 'n' :: 'f' :: 'i' :: 'n' :: 'i' :: 't' :: 'y' :: r =>
        some (JsonValue.num "Infinity", r)
      | '-' :: 'I' :: 'n' :: 'f' :: 'i' :: 'n' :: 'i' :: 't' :: 'y' :: r =>
        some (JsonValue.num "-Infinity", r)
      | '"' :: r =>
        (parseJStrAux (r.length + 1) r).map
          (fun p => (JsonValue.str (String.mk p.1), p.2))
      | '{' :: r =>
        (match jsonWs r with
         | '}' :: r2 => some (JsonValue.obj [], r2)
         | r2 => ((jsonFns fuel).2.1 r2).map (fun p => (JsonValue.obj p.1, p.2)))
      | '[' :: r =>
        (match jsonWs r with
         | ']' :: r2 => some (JsonValue.arr [], r2)
         | r2 => ((jsonFns fuel).2.2 r2).map (fun p => (JsonValue.arr p.1, p.2)))
      | other => (parseJNum other).map (fun p => (JsonValue.num (String.mk p.1), p.2)),
     fun cs =>
      match jsonWs cs with
      | '"' :: r =>
        (match parseJStrAux (r.length + 1) r with
         | some (key, r1) =>
           (match jsonWs r1 with
            | ':' :: r2 =>
              (match (jsonFns fuel).1 r2 with
               | some (v, r3) =>
                 (match jsonWs r3 with
                  | ',' :: r4 =>
                    ((jsonFns fuel).2.1 r4).map
                      (fun p => ((String.mk key, v) :: p.1, p.2))
                  | '}' :: r4 => some ([(String.mk key, v)], r4)
                  | _ => none)
               | none => none)
            | _ => none)
         | none => none)
      | _ => none,
     fun cs =>
      match (jsonFns fuel).1 cs with
      | some (v, r) =>
        (match jsonWs r with
         | ',' :: r2 => ((jsonFns fuel).2.2 r2).map (fun p => (v :: p.1, p.2))
         | ']' :: r2 => some ([v], r2)
         | _ => none)
      | none => none)

/-- `json.loads`: parse one JSON value, allowing surrounding whitespace
only; `none` models `json.JSONDecodeError`. -/
def pyLoads (s : String) : Option JsonValue :=
  match (jsonFns (2 * s.length + 2)).1 s.data with
  | some (v, rest) => if (jsonWs rest).isEmpty then some v else none
  | none => none

/- ── Fence stripping and JSON extraction (`llm_client.py`) ─────────── -/

/-- Whether the regex tail `\n?\s*```` matches at this position: a
whitespace run followed by a literal triple backtick (`\n` is itself `\s`,
so the optional leading newline adds nothing). -/
def closesFence (l : List Char) : Bool :=
  (l.dropWhile isPyWs).take 3 == ['`', '`', '`']

/-- The shortest prefix (the lazy group `(.*?)`) whose remainder matches
`\n?\s*```` — `none` when no closing fence follows. -/
def takeInner : List Char → Option (List Char)
  | [] => none
  | c :: rest =>
    if closesFence (c :: rest) then some []
    else (takeInner rest).map (fun p => c :: p)

/-- Match `````(?:json)?\s*\n?(.*?)\n?\s*```` `` at the head of the list,
returning group 1. The optional `json` tag is taken greedily and `\s*\n?`
collapses to a whitespace run; both preferences agree with the backtracking
engine because the match succeeds iff a closing fence exists at all, which
neither choice affects. -/
def matchFenceAt (l : List Char) : Option (List Char) :=
  if l.take 3 = ['`', '`', '`'] then
    if (l.drop 3).take 4 = ['j', 's', 'o', 'n'] then
      takeInner (((l.drop 3).drop 4).dropWhile isPyWs)
    else takeInner ((l.drop 3).dropWhile isPyWs)
  else none

/-- `re.search` of the fence pattern: group 1 of the match at the leftmost
position where one exists. -/
def searchFence : List Char → Option (List Char)
  | [] => none
  | c :: rest =>
    match matchFenceAt (c :: rest) with
    | some inner => some inner
    | none => searchFence rest

/-- `text[brace_start : brace_end + 1]` for the first `{` and last `}`,
provided both exist and the end is after the start. -/
def braceSlice (cs : List Char) : Option (List Char) :=
  match firstIdxOf '{' cs, lastIdxOf '}' cs with
  | some i, some j => if i < j then some ((cs.drop i).take (j + 1 - i)) else none
  | _, _ => none

/-- The `LLMError` message of `_extract_json`. -/
def PARSE_ERR_MSG : String :=
  "LLM returned a response that could not be parsed as JSON. This is usually transient — please try again."

/-- `_extract_json`: strip the input, replace it by the stripped inner text
of the first fenced block found anywhere (if any), then try a direct parse,
then the first-`{`-to-last-`}` substring, else `LLMError` (status 502). -/
def _extract_json (text0 : String) : Except (String × Nat) JsonValue :=
  let text1 := pyStrip text0
  let text :=
    match searchFence text1.data with
    | some inner => pyStrip (String.mk inner)
    | none => text1
  match pyLoads text with
  | some v => .ok v
  | none =>
    match braceSlice text.data with
    | some sub =>
      (match pyLoads (String.mk sub) with
       | some v => .ok v
       | none => .error (PARSE_ERR_MSG, 502))
    | none => .error (PARSE_ERR_MSG, 502)

/- ── Response validation (`llm_client.py`) ─────────────────────────── -/

/-- A Python value as far as `_validate_response` observes it. -/
inductive PyVal where
  | none
  | str (s : String)
  | int (n : Int)
  | bool (b : Bool)
  | list (xs : List PyVal)

/-- Python truthiness of a `PyVal`. -/
def pyTruthy : PyVal → Bool
  | .none => false
  | .str s => !s.data.isEmpty
  | .int n => n != 0
  | .bool b => b
  | .list xs => !xs.isEmpty

/-- Python `repr` (fuelled through nested lists; string escaping is outside
the model — no claim stringifies a list). -/
def pyReprV : Nat → PyVal → String
  | _, .none => "None"
  | _, .str s => "\x27" ++ s ++ "\x27"
  | _, .int n => if n < 0 then "-" ++ pyStrNat (-n).toNat else pyStrNat n.toNat
  | _, .bool b => if b then "True" else "False"
  | 0, .list _ => "[...]"
  | fuel + 1, .list xs => "[" ++ pyJoin ", " (xs.map (pyReprV fuel)) ++ "]"

/-- Python `str(v)`. -/
def pyStrV : PyVal → String
  | .str s => s
  | .none => "None"
  | .int n => if n < 0 then "-" ++ pyStrNat (-n).toNat else pyStrNat n.toNat
  | .bool b => if b then "True" else "False"
  | .list xs => "[" ++ pyJoin ", " (xs.map (pyReprV 16)) ++ "]"

/-- `data.get(k)`: the value at key `k`, `None` when absent. -/
def pyGetV (d : List (String × PyVal)) (k : String) : PyVal :=
  match d.find? (fun p => p.1 == k) with
  | some p => p.2
  | Option.none => .none

/-- The `LLMError` message of `_validate_response` for a field. -/
def validateErrMsg (field : String) : String :=
  "LLM response is missing a valid \x27" ++ field ++ "\x27 field."

/-- `_validate_response`: require `summary` a non-blank string, then
`technologies` a list, then `structure` a non-blank string; on success
return `(summary.strip(), [str(t) for t in technologies if t],
structure.strip())`. -/
def _validate_response (data : List (String × PyVal)) :
    Except (String × Nat) (String × List String × String) :=
  match pyGetV data "summary" with
  | .str s =>
    if (pyStrip s).data.isEmpty then .error (validateErrMsg "summary", 502)
    else
      match pyGetV data "technologies" with
      | .list ts =>
        (match pyGetV data "structure" with
         | .str st =>
           if (pyStrip st).data.isEmpty then .error (validateErrMsg "structure", 502)
           else .ok (pyStrip s, (ts.filter pyTruthy).map pyStrV, pyStrip st)
         | _ => .error (validateErrMsg "structure", 502))
      | _ => .error (validateErrMsg "technologies", 502)
  | _ => .error (validateErrMsg "summary", 502)

/-- A small concrete tree (the spec's end-to-end scenario plus a tree
entry), used as a witness input. -/
def exampleTree : List TreeEntry :=
  [⟨"README.md", "blob", 500⟩, ⟨"package.json", "blob", 200⟩,
   ⟨"src/main.py", "blob", 1024⟩, ⟨"node_modules/lib.js", "blob", 900⟩,
   ⟨"src", "tree", 0⟩]

/-- Decidable equality for the result type of `_validate_response`. -/
instance : DecidableEq (Except (String × Nat) (String × List String × String)) :=
  fun a b =>
    match a, b with
    | .error x, .error y => decidable_of_iff (x = y) ⟨fun h => h ▸ rfl, Except.error.inj⟩
    | .ok x, .ok y => decidable_of_iff (x = y) ⟨fun h => h ▸ rfl, Except.ok.inj⟩
    | .error _, .ok _ => isFalse (fun h => Except.noConfusion h)
    | .ok _, .error _ => isFalse (fun h => Except.noConfusion h)

/-- `isinstance(v, str) and v.strip()`: a non-blank string value. -/
def isNonBlankStrV : PyVal → Bool
  | .str s => !(pyStrip s).data.isEmpty
  | _ => false

/-- `isinstance(v, list)`. -/
def isListV : PyVal → Bool
  | .list _ => true
  | _ => false

/- ── Concrete budget-overflow scenarios (witness inputs) ───────────── -/

/-- A 200000-character single-line file body: large enough that its block
overflows the context budget. -/
def hugeBody : String := String.mk (List.replicate 200000 'x')

/-- A metadata dict with every optional field absent. -/
def md0 : Metadata := ⟨none, none, none, none, [], 0⟩

/-- Bodies for the C2 scenario: a huge tier-1 file then a small one. -/
def c2bodies : List (String × String) := [("a", hugeBody), ("b", "hi")]

/-- Candidates for the C2 scenario (both tier 1). -/
def c2cands : List Candidate := [⟨"a", 0, 1⟩, ⟨"b", 0, 1⟩]

/-- Bodies for the C9 scenario: small, huge, small (all tier 5). -/
def c9bodies : List (String × String) := [("a", "hi"), ("b", hugeBody), ("c", "yo")]

/-- Candidates for the C9 scenario (all tier 5). -/
def c9cands : List Candidate := [⟨"a", 0, 5⟩, ⟨"b", 0, 5⟩, ⟨"c", 0, 5⟩]

/-- A 400000-character description, exceeding the whole context budget. -/
def bigDesc : String := String.mk (List.replicate 400000 'x')

/-- Metadata whose description alone exceeds the budget. -/
def mdBig : Metadata := ⟨none, none, some bigDesc, none, [], 0⟩

/- ── Spec-side tier cascades (for claim C5) ───────────────────────── -/

/-- The tier cascade exactly as claim C5 orders it: tier-1 set, tier-2 set,
tier-3 set, entry-point basename with source extension (tier 4), source
extension (tier 5), supplementary-docs set (tier 6), else excluded (99) —
written from the claim's words; note it has no root-level `__init__.py`
rule. -/
def claimTierOrder (path : String) : Nat :=
  if pyLower (pyBasename path) ∈ TIER_1_FILES then 1
  else if pyLower (pyBasename path) ∈ TIER_2_FILES then 2
  else if pyLower (pyBasename path) ∈ TIER_3_FILES then 3
  else if (pySplitext (pyLower (pyBasename path))).1 ∈ TIER_4_BASENAMES ∧
      (pySplitext (pyLower (pyBasename path))).2 ∈ SOURCE_EXTENSIONS then 4
  else if (pySplitext (pyLower (pyBasename path))).2 ∈ SOURCE_EXTENSIONS then 5
  else if pyLower (pyBasename path) ∈ TIER_6_FILES then 6
  else 99

/-- The tier cascade as amended: between the entry-point check and the
plain source-extension check the code classifies a root-level
`__init__.py` as tier 4. Written from the amended claim's words. -/
def amendedTierOrder (path : String) : Nat :=
  if pyLower (pyBasename path) ∈ TIER_1_FILES then 1
  else if pyLower (pyBasename path) ∈ TIER_2_FILES then 2
  else if pyLower (pyBasename path) ∈ TIER_3_FILES then 3
  else if (pySplitext (pyLower (pyBasename path))).1 ∈ TIER_4_BASENAMES ∧
      (pySplitext (pyLower (pyBasename path))).2 ∈ SOURCE_EXTENSIONS then 4
  else if pyLower (pyBasename path) = "__init__.py" ∧
      pyContainsChar path '/' = false then 4
  else if (pySplitext (pyLower (pyBasename path))).2 ∈ SOURCE_EXTENSIONS then 5
  else if pyLower (pyBasename path) ∈ TIER_6_FILES then 6
  else 99

/- ── General lemmas about the string helpers ───────────────────────── -/

theorem splitCharL_ne_nil (sep : Char) (l : List Char) : splitCharL sep l ≠ [] := by
  induction l with
  | nil => simp [splitCharL]
  | cons c rest ih =>
    by_cases h : c = sep
    · simp [splitCharL, h]
    · simp only [splitCharL, if_neg h]
      cases hs : splitCharL sep rest with
      | nil => exact absurd hs ih
      | cons p ps => simp

theorem splitCharL_append_sep (sep : Char) (a b : List Char) :
    splitCharL sep (a ++ sep :: b) = splitCharL sep a ++ splitCharL sep b := by
  induction a with
  | nil => simp [splitCharL]
  | cons c a' ih =>
    by_cases h : c = sep
    · simp only [List.cons_append, splitCharL, if_pos h]
      exact congrArg (List.cons []) ih
    · cases hs : splitCharL sep a' with
      | nil => exact absurd hs (splitCharL_ne_nil sep a')
      | cons p ps =>
        have hc : (c :: a') ++ sep :: b = c :: (a' ++ sep :: b) := rfl
        rw [hc]
        simp only [splitCharL, if_neg h]
        rw [ih, hs]
        simp

theorem splitCharL_of_not_mem {sep : Char} {l : List Char} (h : sep ∉ l) :
    splitCharL sep l = [l] := by
  induction l with
  | nil => simp [splitCharL]
  | cons c rest ih =>
    simp only [List.mem_cons, not_or] at h
    simp only [splitCharL, if_neg (fun hc : c = sep => h.1 hc.symm), ih h.2]

theorem not_mem_of_mem_splitCharL {sep : Char} {l p : List Char}
    (h : p ∈ splitCharL sep l) : sep ∉ p := by
  induction l generalizing p with
  | nil => simp [splitCharL] at h; simp [h]
  | cons c rest ih =>
    by_cases hc : c = sep
    · simp only [splitCharL, if_pos hc, List.mem_cons] at h
      rcases h with h | h
      · simp [h]
      · exact ih h
    · simp only [splitCharL, if_neg hc] at h
      cases hs : splitCharL sep rest with
      | nil => exact absurd hs (splitCharL_ne_nil sep rest)
      | cons q qs =>
        rw [hs] at h
        rcases List.mem_cons.mp h with h | h
        · subst h
          intro hm
          rcases List.mem_cons.mp hm with hm | hm
          · exact hc hm.symm
          · exact ih (hs ▸ List.mem_cons_self q qs) hm
        · exact ih (hs ▸ List.mem_cons_of_mem q h)

theorem splitCharL_joinCharL {sep : Char} {parts : List (List Char)}
    (hne : parts ≠ []) (hfree : ∀ p ∈ parts, sep ∉ p) :
    splitCharL sep (joinCharL sep parts) = parts := by
  induction parts with
  | nil => exact absurd rfl hne
  | cons p ps ih =>
    cases ps with
    | nil =>
      simp only [joinCharL]
      exact splitCharL_of_not_mem (hfree p (List.mem_cons_self p []))
    | cons q qs =>
      have hj : joinCharL sep (p :: q :: qs) = p ++ sep :: joinCharL sep (q :: qs) := rfl
      rw [hj, splitCharL_append_sep,
        splitCharL_of_not_mem (hfree p (List.mem_cons_self p _)),
        ih (by simp) (fun r hr => hfree r (List.mem_cons_of_mem p hr))]
      rfl

theorem string_data_append (a b : String) : (a ++ b).data = a.data ++ b.data := rfl

theorem string_mk_append (x y : List Char) :
    String.mk (x ++ y) = String.mk x ++ String.mk y := rfl

theorem pyJoin_data (sep : Char) (parts : List (List Char)) :
    (pyJoin (String.mk [sep]) (parts.map String.mk)).data = joinCharL sep parts := by
  induction parts with
  | nil => rfl
  | cons p ps ih =>
    cases ps with
    | nil => rfl
    | cons q qs =>
      have h2 : (String.mk p ++ String.mk [sep] ++
          pyJoin (String.mk [sep]) (List.map String.mk (q :: qs))).data =
          p ++ [sep] ++ joinCharL sep (q :: qs) := by
        rw [string_data_append, string_data_append, ih]
      simp only [List.map_cons] at h2 ⊢
      rw [show (pyJoin (String.mk [sep])
          (String.mk p :: String.mk q :: List.map String.mk qs)) =
          String.mk p ++ String.mk [sep] ++
            pyJoin (String.mk [sep]) (String.mk q :: List.map String.mk qs) from rfl, h2]
      show p ++ [sep] ++ joinCharL sep (q :: qs) = p ++ sep :: joinCharL sep (q :: qs)
      simp

theorem digitChar_ne_nl (d : Nat) (h : d < 10) : Char.ofNat (48 + d) ≠ '\n' := by
  interval_cases d <;> decide

theorem nl_not_mem_natDigitsAux (fuel n : Nat) : '\n' ∉ natDigitsAux fuel n := by
  induction fuel generalizing n with
  | zero => simp [natDigitsAux]
  | succ fuel ih =>
    by_cases hlt : n < 10
    · simp only [natDigitsAux, if_pos hlt]
      intro hm
      exact digitChar_ne_nl n hlt (List.mem_singleton.mp hm).symm
    · simp only [natDigitsAux, if_neg hlt]
      intro hm
      rcases List.mem_append.mp hm with h | h
      · exact ih _ h
      · exact digitChar_ne_nl (n % 10) (Nat.mod_lt _ (by norm_num))
          (List.mem_singleton.mp h).symm

theorem string_mk_data (s : String) : String.mk s.data = s := rfl

theorem pyJoinNl_data (parts : List (List Char)) :
    (pyJoin "\n" (parts.map String.mk)).data = joinCharL '\n' parts :=
  pyJoin_data '\n' parts

theorem splitCharL_cons_self (sep : Char) (l : List Char) :
    splitCharL sep (sep :: l) = [] :: splitCharL sep l := by
  simp [splitCharL]

theorem selCandidate_some {item : TreeEntry} {c : Candidate}
    (h : selCandidate item = some c) :
    item.type = "blob" ∧ _should_skip item.path = false ∧
    _get_tier item.path item.size ≠ 99 ∧
    c = ⟨item.path, item.size, _get_tier item.path item.size⟩ := by
  simp only [selCandidate] at h
  split at h
  · exact absurd h (by simp)
  split at h
  · exact absurd h (by simp)
  split at h
  · exact absurd h (by simp)
  rename_i h1 h2 h3
  refine ⟨?_, ?_, ?_, ?_⟩
  · simpa [bne] using h1
  · simpa using h2
  · simpa using h3
  · exact (Option.some_injective _ h).symm

theorem select_paths_sublist (tree : List TreeEntry) :
    ((tree.filterMap selCandidate).map Candidate.path).Sublist
      (tree.map TreeEntry.path) := by
  induction tree with
  | nil => simp
  | cons e rest ih =>
    cases hsel : selCandidate e with
    | none =>
      simp only [List.filterMap_cons, hsel, List.map_cons]
      exact ih.cons _
    | some c =>
      have hp : c.path = e.path := by
        rw [(selCandidate_some hsel).2.2.2]
      simp only [List.filterMap_cons, hsel, List.map_cons, hp]
      exact ih.cons₂ _

theorem string_mk_length (l : List Char) : (String.mk l).length = l.length := rfl

theorem hugeBody_length : hugeBody.length = 200000 := by
  rw [show hugeBody.length = (List.replicate 200000 'x').length from rfl,
    List.length_replicate]

theorem nl_not_mem_replicate (n : Nat) : '\n' ∉ List.replicate n 'x' := by
  intro hm
  have := List.eq_of_mem_replicate hm
  simp at this

theorem truncate_hugeBody : truncate_file_content hugeBody MAX_FILE_LINES = hugeBody := by
  have hsplit : pySplitNl hugeBody = [hugeBody] := by
    show (splitCharL '\n' (List.replicate 200000 'x')).map String.mk = _
    rw [splitCharL_of_not_mem (nl_not_mem_replicate 200000)]
    rfl
  simp only [truncate_file_content, hsplit]
  norm_num [MAX_FILE_LINES]

theorem fileBlock_hugeBody_length (p : String) :
    (fileBlock p hugeBody).length = p.length + 200011 := by
  simp only [fileBlock, String.length_append, hugeBody_length]
  have l1 : ("--- " : String).length = 4 := rfl
  have l3 : (" ---\n" : String).length = 5 := rfl
  have l4 : ("\n\n" : String).length = 2 := rfl
  rw [l1, l3, l4]
  omega

theorem ctxLoop_cons (sel : List Candidate) (bodies : List (String × String))
    (c : Candidate) (rest : List Candidate) (total : Nat) :
    ctxLoop sel bodies (c :: rest) total =
      match pyDictGet bodies c.path with
      | none => ctxLoop sel bodies rest total
      | some content₀ =>
        let content := truncate_file_content content₀ MAX_FILE_LINES
        let block := fileBlock c.path content
        if total + block.length > MAX_CONTEXT_CHARS then
          (if c.tier ≤ 3 then
            let available : Int := (MAX_CONTEXT_CHARS : Int) - (total : Int) - 200
            if available > 500 then
              [truncFileBlock c.path (pyTake content available.toNat)]
            else []
          else []) ++ [omitNotice (remainingCount sel bodies c.path)]
        else block :: ctxLoop sel bodies rest (total + block.length) := rfl

theorem ctxLoop_skip {bodies : List (String × String)} {c : Candidate}
    (sel : List Candidate) (rest : List Candidate) (total : Nat)
    (hget : pyDictGet bodies c.path = none) :
    ctxLoop sel bodies (c :: rest) total = ctxLoop sel bodies rest total := by
  rw [ctxLoop_cons, hget]

theorem ctxLoop_fit {bodies : List (String × String)} {c : Candidate}
    {content₀ : String} (sel : List Candidate) (rest : List Candidate)
    (total : Nat) (hget : pyDictGet bodies c.path = some content₀)
    (hfit : ¬ total +
      (fileBlock c.path (truncate_file_content content₀ MAX_FILE_LINES)).length >
        MAX_CONTEXT_CHARS) :
    ctxLoop sel bodies (c :: rest) total =
      fileBlock c.path (truncate_file_content content₀ MAX_FILE_LINES) ::
        ctxLoop sel bodies rest (total +
          (fileBlock c.path (truncate_file_content content₀ MAX_FILE_LINES)).length) := by
  rw [ctxLoop_cons, hget]
  simp only [if_neg hfit]

theorem ctxLoop_stop {bodies : List (String × String)} {c : Candidate}
    {content₀ : String} (sel : List Candidate) (rest : List Candidate)
    (total : Nat) (hget : pyDictGet bodies c.path = some content₀)
    (hover : total +
      (fileBlock c.path (truncate_file_content content₀ MAX_FILE_LINES)).length >
        MAX_CONTEXT_CHARS) :
    ctxLoop sel bodies (c :: rest) total =
      (if c.tier ≤ 3 then
        if ((MAX_CONTEXT_CHARS : Int) - (total : Int) - 200) > 500 then
          [truncFileBlock c.path (pyTake (truncate_file_content content₀ MAX_FILE_LINES)
            ((MAX_CONTEXT_CHARS : Int) - (total : Int) - 200).toNat)]
        else []
      else []) ++ [omitNotice (remainingCount sel bodies c.path)] := by
  rw [ctxLoop_cons, hget]
  simp only [if_pos hover]

theorem buildContextSections_eq (md : Metadata) (tree : List TreeEntry)
    (fc : List (String × String)) (sel : List Candidate) :
    buildContextSections md tree fc sel =
      [_build_metadata_section md,
       "=== DIRECTORY STRUCTURE ===\n" ++ format_tree tree ++ "\n",
       "=== FILE CONTENTS ===\n"] ++
        ctxLoop sel fc sel ((_build_metadata_section md).length +
          ("=== DIRECTORY STRUCTURE ===\n" ++ format_tree tree ++ "\n").length +
          ("=== FILE CONTENTS ===\n").length) := rfl

theorem string_length_append (a b : String) :
    (a ++ b).length = a.length + b.length := by
  show (a.data ++ b.data).length = a.data.length + b.data.length
  simp

theorem sumLen_nil : sumLen [] = 0 := rfl

theorem sumLen_cons (a : String) (l : List String) :
    sumLen (a :: l) = a.length + sumLen l := by simp [sumLen]

theorem sumLen_append (l1 l2 : List String) :
    sumLen (l1 ++ l2) = sumLen l1 + sumLen l2 := by simp [sumLen]

theorem pyJoin_length (sep : String) (l : List String) :
    (pyJoin sep l).length = sumLen l + sep.length * (l.length - 1) := by
  induction l with
  | nil => simp [pyJoin, sumLen]
  | cons s rest ih =>
    cases rest with
    | nil => simp [pyJoin, sumLen]
    | cons t ts =>
      show (s ++ sep ++ pyJoin sep (t :: ts)).length = _
      rw [string_length_append, string_length_append, ih]
      have e1 : (t :: ts).length - 1 = ts.length := by simp
      have e2 : (s :: t :: ts).length - 1 = ts.length + 1 := by simp
      rw [e1, e2, Nat.mul_add, Nat.mul_one]
      simp only [sumLen_cons]
      ring

theorem natDigitsAux_length_le (fuel n : Nat) :
    (natDigitsAux fuel n).length ≤ n + 1 := by
  induction fuel generalizing n with
  | zero => simp [natDigitsAux]
  | succ fuel ih =>
    by_cases hlt : n < 10
    · simp [natDigitsAux, if_pos hlt]
    · simp only [natDigitsAux, if_neg hlt, List.length_append, List.length_singleton]
      have := ih (n / 10)
      omega

theorem pyStrNat_length_le (n : Nat) : (pyStrNat n).length ≤ n + 1 :=
  natDigitsAux_length_le (n + 1) n

theorem omitNotice_length_le (n : Nat) : (omitNotice n).length ≤ 55 + n := by
  show ("... (" ++ pyStrNat n ++
    " additional files omitted due to context budget)\n").length ≤ 55 + n
  rw [string_length_append, string_length_append]
  have h1 : ("... (" : String).length = 5 := rfl
  have h2 : (" additional files omitted due to context budget)\n" : String).length = 49 := rfl
  have h3 := pyStrNat_length_le n
  omega

theorem fileBlock_length (p c : String) :
    (fileBlock p c).length = p.length + c.length + 11 := by
  show ("--- " ++ p ++ " ---\n" ++ c ++ "\n\n").length = _
  rw [string_length_append, string_length_append, string_length_append,
    string_length_append]
  have h1 : ("--- " : String).length = 4 := rfl
  have h2 : (" ---\n" : String).length = 5 := rfl
  have h3 : ("\n\n" : String).length = 2 := rfl
  omega

theorem truncFileBlock_length (p c : String) :
    (truncFileBlock p c).length = p.length + c.length + 37 := by
  show ("--- " ++ p ++ " (truncated to fit budget) ---\n" ++ c ++ "\n\n").length = _
  rw [string_length_append, string_length_append, string_length_append,
    string_length_append]
  have h1 : ("--- " : String).length = 4 := rfl
  have h2 : (" (truncated to fit budget) ---\n" : String).length = 31 := rfl
  have h3 : ("\n\n" : String).length = 2 := rfl
  omega

theorem pyTake_length_le (s : String) (n : Nat) : (pyTake s n).length ≤ n := by
  show (s.data.take n).length ≤ n
  simp [List.length_take]

theorem remainingCount_le (sel : List Candidate) (bodies : List (String × String))
    (path : String) : remainingCount sel bodies path ≤ sel.length :=
  List.length_filter_le _ _

theorem ctxLoop_bound (sel : List Candidate) (bodies : List (String × String))
    (cands : List Candidate) : ∀ (total : Nat),
    total ≤ MAX_CONTEXT_CHARS →
    (∀ c ∈ cands, c.path.length ≤ 163) →
    sumLen (ctxLoop sel bodies cands total) + total ≤
      MAX_CONTEXT_CHARS + 55 + sel.length ∧
    (ctxLoop sel bodies cands total).length ≤ cands.length + 2 := by
  induction cands with
  | nil =>
    intro total htot _
    constructor
    · show sumLen [] + total ≤ _
      rw [sumLen_nil]
      omega
    · show ([] : List String).length ≤ _
      simp
  | cons c rest ih =>
    intro total htot hpaths
    have hpaths' : ∀ x ∈ rest, x.path.length ≤ 163 :=
      fun x hx => hpaths x (List.mem_cons_of_mem c hx)
    cases hget : pyDictGet bodies c.path with
    | none =>
      rw [ctxLoop_skip sel rest total hget]
      obtain ⟨h1, h2⟩ := ih total htot hpaths'
      refine ⟨h1, ?_⟩
      calc (ctxLoop sel bodies rest total).length ≤ rest.length + 2 := h2
        _ ≤ (c :: rest).length + 2 := by simp
    | some content₀ =>
      by_cases hover : total +
          (fileBlock c.path (truncate_file_content content₀ MAX_FILE_LINES)).length >
            MAX_CONTEXT_CHARS
      · rw [ctxLoop_stop sel rest total hget hover]
        have hnotice : (omitNotice (remainingCount sel bodies c.path)).length ≤
            55 + sel.length := by
          have h1 := omitNotice_length_le (remainingCount sel bodies c.path)
          have h2 := remainingCount_le sel bodies c.path
          omega
        have hpathc : c.path.length ≤ 163 := hpaths c (List.mem_cons_self c rest)
        constructor
        · by_cases htier : c.tier ≤ 3
          · rw [if_pos htier]
            by_cases havail : ((MAX_CONTEXT_CHARS : Int) - (total : Int) - 200) > 500
            · rw [if_pos havail]
              have htnat : ((MAX_CONTEXT_CHARS : Int) - (total : Int) - 200).toNat =
                  MAX_CONTEXT_CHARS - total - 200 := by omega
              have htot700 : total + 700 ≤ MAX_CONTEXT_CHARS := by omega
              have htrunc : (truncFileBlock c.path
                  (pyTake (truncate_file_content content₀ MAX_FILE_LINES)
                    ((MAX_CONTEXT_CHARS : Int) - (total : Int) - 200).toNat)).length ≤
                  MAX_CONTEXT_CHARS - total := by
                rw [truncFileBlock_length]
                have := pyTake_length_le (truncate_file_content content₀ MAX_FILE_LINES)
                  (((MAX_CONTEXT_CHARS : Int) - (total : Int) - 200).toNat)
                omega
              show sumLen [_, _] + total ≤ _
              rw [sumLen_cons, sumLen_cons, sumLen_nil]
              omega
            · rw [if_neg havail]
              show sumLen [_] + total ≤ _
              rw [sumLen_cons, sumLen_nil]
              omega
          · rw [if_neg htier]
            show sumLen [_] + total ≤ _
            rw [sumLen_cons, sumLen_nil]
            omega
        · have hle1 : (if c.tier ≤ 3 then
              if ((MAX_CONTEXT_CHARS : Int) - (total : Int) - 200) > 500 then
                [truncFileBlock c.path
                  (pyTake (truncate_file_content content₀ MAX_FILE_LINES)
                    ((MAX_CONTEXT_CHARS : Int) - (total : Int) - 200).toNat)]
              else []
            else []).length ≤ 1 := by
            split
            · split
              · simp
              · simp
            · simp
          rw [List.length_append]
          simp only [List.length_singleton]
          simp only [List.length_cons]
          omega
      · rw [ctxLoop_fit sel rest total hget (by omega)]
        obtain ⟨h1, h2⟩ := ih
          (total + (fileBlock c.path (truncate_file_content content₀ MAX_FILE_LINES)).length)
          (by omega) hpaths'
        constructor
        · rw [sumLen_cons]
          omega
        · simp only [List.length_cons]
          omega

theorem mem_splitCharL_subset {sep : Char} {l p : List Char}
    (h : p ∈ splitCharL sep l) : ∀ c ∈ p, c ∈ l := by
  induction l generalizing p with
  | nil =>
    simp [splitCharL] at h
    simp [h]
  | cons x rest ih =>
    by_cases hx : x = sep
    · simp only [splitCharL, if_pos hx, List.mem_cons] at h
      rcases h with h | h
      · simp [h]
      · exact fun c hc => List.mem_cons_of_mem x (ih h c hc)
    · simp only [splitCharL, if_neg hx] at h
      cases hs : splitCharL sep rest with
      | nil => exact absurd hs (splitCharL_ne_nil sep rest)
      | cons q qs =>
        rw [hs] at h
        rcases List.mem_cons.mp h with h | h
        · subst h
          intro c hc
          rcases List.mem_cons.mp hc with hc | hc
          · simp [hc]
          · exact List.mem_cons_of_mem x
              (ih (hs ▸ List.mem_cons_self q qs) c hc)
        · exact fun c hc => List.mem_cons_of_mem x
            (ih (hs ▸ List.mem_cons_of_mem q h) c hc)

theorem stripScheme_sublist (l : List Char) : (stripScheme l).Sublist l := by
  simp only [stripScheme]
  split
  · exact List.drop_sublist _ _
  · exact List.Sublist.refl l

theorem pyStripChar_data_sublist (c : Char) (s : String) :
    (pyStripChar c s).data.Sublist s.data := by
  show (((s.data.dropWhile (fun x => x = c)).reverse.dropWhile
    (fun x => x = c)).reverse).Sublist s.data
  have h1 : (s.data.dropWhile (fun x => x = c)).Sublist s.data :=
    List.dropWhile_sublist _
  have h2 : ((s.data.dropWhile (fun x => x = c)).reverse.dropWhile
      (fun x => x = c)).Sublist (s.data.dropWhile (fun x => x = c)).reverse :=
    List.dropWhile_sublist _
  have h3 := h2.reverse
  simp only [List.reverse_reverse] at h3
  exact h3.trans h1

theorem nl_not_mem_urlClean (s : String) : '\n' ∉ urlClean s := by
  intro hm
  have := (List.mem_filter.mp hm).2
  simp at this

theorem mem_splitParamsPath {c : Char} {p : List Char}
    (h : c ∈ splitParamsPath p) : c ∈ p := by
  unfold splitParamsPath at h
  split at h
  · dsimp only at h
    split at h
    · rcases List.mem_append.mp h with h1 | h1
      · exact (List.take_sublist _ _).subset h1
      · have h2 : c ∈ (p.reverse.takeWhile (fun c => c ≠ '/')).reverse :=
          (List.takeWhile_sublist _).subset h1
        have h3 : c ∈ p.reverse.takeWhile (fun c => c ≠ '/') :=
          List.mem_reverse.mp h2
        exact List.mem_reverse.mp ((List.takeWhile_sublist _).subset h3)
    · exact h
  · exact (List.takeWhile_sublist _).subset h

theorem mem_ghParamCut {c : Char} {sch : String} {p : List Char}
    (h : c ∈ ghParamCut sch p) : c ∈ p := by
  unfold ghParamCut at h
  split at h
  · exact mem_splitParamsPath h
  · exact h

theorem nl_not_mem_urlPath (s : String) : '\n' ∉ (pyUrlparts s).2.data := by
  intro hm
  apply nl_not_mem_urlClean s
  unfold pyUrlparts at hm
  split at hm
  · simp only at hm
    have h0 : '\n' ∈ ((((stripScheme (urlClean s)).drop 2).drop
        (urlNetloc (stripScheme (urlClean s))).length).takeWhile
          (fun c => !(c = '?' || c = '#'))) := mem_ghParamCut hm
    have h1 : '\n' ∈ (((stripScheme (urlClean s)).drop 2).drop
        (urlNetloc (stripScheme (urlClean s))).length) :=
      (List.takeWhile_sublist _).subset h0
    have h2 : '\n' ∈ stripScheme (urlClean s) :=
      (List.drop_sublist _ _).subset ((List.drop_sublist _ _).subset h1)
    exact (stripScheme_sublist (urlClean s)).subset h2
  · simp only at hm
    have h0 : '\n' ∈ ((stripScheme (urlClean s)).takeWhile
        (fun c => !(c = '?' || c = '#'))) := mem_ghParamCut hm
    have h1 : '\n' ∈ stripScheme (urlClean s) :=
      (List.takeWhile_sublist _).subset h0
    exact (stripScheme_sublist (urlClean s)).subset h1

theorem ghSegments_props {url : String} {seg : String}
    (h : seg ∈ ghSegments url) : seg ≠ "" ∧ '\n' ∉ seg.data := by
  unfold ghSegments at h
  have hmem := List.mem_filter.mp h
  have hne : seg ≠ "" := by
    have := hmem.2
    simpa using this
  refine ⟨hne, ?_⟩
  rcases List.mem_map.mp hmem.1 with ⟨p, hp, hpe⟩
  intro hnl
  rw [← hpe] at hnl
  have hchars := mem_splitCharL_subset hp '\n' hnl
  exact nl_not_mem_urlPath url
    ((pyStripChar_data_sublist '/' (pyUrlparts url).2).subset hchars)

theorem nameMatches_eq_all {seg : String} (hne : seg ≠ "")
    (hnl : '\n' ∉ seg.data) : nameMatches seg = seg.data.all isNameChar := by
  unfold nameMatches
  have h1 : seg.data.isEmpty = false := by
    cases seg with
    | mk d =>
      cases d with
      | nil => exact absurd rfl hne
      | cons a as => rfl
  have h2 : (seg.data.getLast? == some '\n') = false := by
    cases hl : seg.data.getLast? with
    | none => rfl
    | some a =>
      have ha : a ∈ seg.data := List.mem_of_getLast?_eq_some hl
      have : a ≠ '\n' := fun he => hnl (he ▸ ha)
      simp [this]
  rw [h1, h2]
  simp

theorem segs_getD_mem {url : String} {i : Nat}
    (h : i < (ghSegments url).length) :
    (ghSegments url).getD i "" ∈ ghSegments url := by
  rw [List.getD_eq_getElem _ _ h]
  exact List.getElem_mem h

/- ══ Claim C4 ═══════════════════════════════════════════════════════ -/

/-- C4 counterexample: the claim says every path whose filename extension is
a member of `SKIP_EXTENSIONS` is skipped, "including multi-dot and
mixed-case members such as `.min.js` and `.DS_Store`". In the code,
`os.path.splitext` only ever yields the part from the *last* dot of the
already lower-cased filename, so the multi-dot member `.min.js` and the
mixed-case member `.DS_Store` can never match: `app.min.js` (extension
`.js`, not in the set) and `assets/.DS_Store` (empty extension) are not
skipped. -/
theorem C4_counterexample :
    ".min.js" ∈ SKIP_EXTENSIONS ∧ ".DS_Store" ∈ SKIP_EXTENSIONS ∧
    _should_skip "app.min.js" = false ∧ _should_skip "assets/.DS_Store" = false := by
  decide

/-- C4 (amended): for every path whose lower-cased filename's `splitext`
extension (the part from the last dot, empty for a bare leading-dot name)
is a member of `SKIP_EXTENSIONS`, `_should_skip` returns true, regardless
of the directory the file lies in. -/
theorem C4_skip_by_extension (path : String)
    (h : (pySplitext (skipFilename path)).2 ∈ SKIP_EXTENSIONS) :
    _should_skip path = true := by
  unfold _should_skip
  split
  · rfl
  · split
    · rfl
    · rw [if_pos]
      simpa [List.elem_iff] using h

/-- C4 witness: `images/logo.png` has extension `.png ∈ SKIP_EXTENSIONS`
and is skipped. -/
theorem C4_witness :
    (pySplitext (skipFilename "images/logo.png")).2 ∈ SKIP_EXTENSIONS ∧
    _should_skip "images/logo.png" = true :=
  ⟨by decide, C4_skip_by_extension "images/logo.png" (by decide)⟩

/- ══ Claim C5 ═══════════════════════════════════════════════════════ -/

/-- C5 counterexample: the claim's strict check order (with no root-level
`__init__.py` rule between tier 4 and tier 5) classifies the root-level
`__init__.py` as tier 5, but the code returns 4 for it. -/
theorem C5_counterexample :
    claimTierOrder "__init__.py" = 5 ∧ _get_tier "__init__.py" 0 = 4 := by
  decide

/-- C5 (amended): for every size value, `_get_tier` returns 1 for
`README.md`, 2 for `package.json`, 3 for `Dockerfile`, 4 for `main.py`,
5 for `src/utils.py`, 6 for `LICENSE` and 99 (excluded) for `data.csv`;
and for every path and size the classifier equals the strict cascade
tier-1 set → tier-2 set → tier-3 set → entry-point basename with source
extension → root-level `__init__.py` → source extension →
supplementary-docs set → excluded (independent of size throughout). -/
theorem C5_tier_values_and_order :
    (∀ size, _get_tier "README.md" size = 1 ∧ _get_tier "package.json" size = 2 ∧
      _get_tier "Dockerfile" size = 3 ∧ _get_tier "main.py" size = 4 ∧
      _get_tier "src/utils.py" size = 5 ∧ _get_tier "LICENSE" size = 6 ∧
      _get_tier "data.csv" size = 99) ∧
    ∀ path size, _get_tier path size = amendedTierOrder path := by
  refine ⟨fun size => by repeat constructor, fun path size => ?_⟩
  unfold _get_tier amendedTierOrder
  simp only [List.contains, List.elem_iff, Bool.and_eq_true, beq_iff_eq,
    Bool.not_eq_true']

/- ══ Claim C7 ═══════════════════════════════════════════════════════ -/

/-- C7 counterexample: the claim says over-limit truncation returns exactly
`maxLines` content lines plus one truncation-notice line "and nothing
else"; the code inserts `"\n\n"`, i.e. an extra *blank* line before the
notice: truncating a 3-line string to 2 lines yields 4 lines. -/
theorem C7_counterexample :
    truncate_file_content "a\nb\nc" 2 = "a\nb\n\n... (truncated, 3 total lines)" ∧
    pySplitNl (truncate_file_content "a\nb\nc" 2) =
      ["a", "b", "", "... (truncated, 3 total lines)"] ∧
    (pySplitNl (truncate_file_content "a\nb\nc" 2)).length ≠ 2 + 1 := by
  refine ⟨by decide, by decide, by decide⟩

/-- C7 (amended): `truncate_file_content` returns content with at most
`max_lines` lines unchanged (idempotent once within the limit); for
over-limit content (and `max_lines ≥ 1`) the result is exactly the first
`max_lines` content lines, one blank line, and one truncation-notice line
containing the original total line count. -/
theorem C7_truncate (content : String) (max_lines : Nat) :
    ((pySplitNl content).length ≤ max_lines →
      truncate_file_content content max_lines = content) ∧
    (max_lines < (pySplitNl content).length → 1 ≤ max_lines →
      pySplitNl (truncate_file_content content max_lines) =
        (pySplitNl content).take max_lines ++
          ["", "... (truncated, " ++ pyStrNat (pySplitNl content).length ++
            " total lines)"]) := by
  constructor
  · intro h
    unfold truncate_file_content
    rw [if_pos h]
  · intro hgt hpos
    unfold truncate_file_content
    rw [if_neg (by omega)]
    have hparts : pySplitNl content = (splitCharL '\n' content.data).map String.mk := rfl
    set parts := splitCharL '\n' content.data with hp
    have hlen : (pySplitNl content).length = parts.length := by
      rw [hparts, List.length_map]
    have htake : (pySplitNl content).take max_lines =
        (parts.take max_lines).map String.mk := by
      rw [hparts, List.map_take]
    set N := (pySplitNl content).length with hN
    have htail : '\n' ∉ ("... (truncated, ".data ++ (pyStrNat N).data ++
        " total lines)".data) := by
      intro hm
      rcases List.mem_append.mp hm with hm | hm
      · rcases List.mem_append.mp hm with hm | hm
        · revert hm; decide
        · exact nl_not_mem_natDigitsAux _ _ hm
      · revert hm; decide
    have hdata : (pyJoin "\n" ((pySplitNl content).take max_lines) ++
        "\n\n... (truncated, " ++ pyStrNat N ++ " total lines)").data =
        joinCharL '\n' (parts.take max_lines) ++ '\n' ::
          ('\n' :: ("... (truncated, ".data ++ (pyStrNat N).data ++
            " total lines)".data)) := by
      rw [string_data_append, string_data_append, string_data_append, htake,
        pyJoinNl_data]
      simp [string_data_append]
    have hne : parts.take max_lines ≠ [] := by
      intro h0
      rcases List.take_eq_nil_iff.mp h0 with h0 | h0
      · omega
      · exact splitCharL_ne_nil '\n' content.data h0
    have hfree : ∀ p ∈ parts.take max_lines, '\n' ∉ p := fun p hm =>
      not_mem_of_mem_splitCharL (List.mem_of_mem_take hm)
    have hsplitdef : ∀ s : String, pySplitNl s = (splitCharL '\n' s.data).map String.mk :=
      fun _ => rfl
    rw [hsplitdef, hdata, splitCharL_append_sep, splitCharL_joinCharL hne hfree]
    have hsplit2 : splitCharL '\n' ('\n' :: ("... (truncated, ".data ++
        (pyStrNat N).data ++ " total lines)".data)) =
        [[], "... (truncated, ".data ++ (pyStrNat N).data ++ " total lines)".data] := by
      rw [splitCharL_cons_self, splitCharL_of_not_mem htail]
    rw [hsplit2, List.map_append, htake]
    congr 1

/-- C7 witness: the amended theorem applied to `"ab"` within the limit and
to the 3-line string `"x\ny\nz"` truncated to 2 lines. -/
theorem C7_witness :
    (truncate_file_content "ab" 5 = "ab") ∧
    (2 < (pySplitNl "x\ny\nz").length ∧
      pySplitNl (truncate_file_content "x\ny\nz" 2) =
        (pySplitNl "x\ny\nz").take 2 ++
          ["", "... (truncated, " ++ pyStrNat (pySplitNl "x\ny\nz").length ++
            " total lines)"]) :=
  ⟨(C7_truncate "ab" 5).1 (by decide),
   by decide, (C7_truncate "x\ny\nz" 2).2 (by decide) (by decide)⟩

/- ══ Claim C6 ═══════════════════════════════════════════════════════ -/

/-- C6: for every tree whose entries have pairwise-distinct paths,
`select_files` yields only blob entries that are neither skipped nor
excluded, unique by path, sorted ascending by `(tier, path)` with
case-sensitive lexicographic path order (`candLe`). -/
theorem C6_select_files (tree : List TreeEntry)
    (h : (tree.map TreeEntry.path).Nodup) :
    (∀ c ∈ select_files tree, ∃ e ∈ tree, e.type = "blob" ∧
        _should_skip e.path = false ∧ _get_tier e.path e.size ≠ 99 ∧
        c = ⟨e.path, e.size, _get_tier e.path e.size⟩) ∧
    ((select_files tree).map Candidate.path).Nodup ∧
    List.Sorted candLe (select_files tree) := by
  refine ⟨?_, ?_, ?_⟩
  · intro c hc
    have hc' : c ∈ tree.filterMap selCandidate :=
      (List.Perm.mem_iff (List.perm_insertionSort candLe _)).mp hc
    rcases List.mem_filterMap.mp hc' with ⟨e, he, hsel⟩
    obtain ⟨hb, hsk, h99, hc⟩ := selCandidate_some hsel
    exact ⟨e, he, hb, hsk, h99, hc⟩
  · have hperm : ((select_files tree).map Candidate.path).Perm
        ((tree.filterMap selCandidate).map Candidate.path) :=
      (List.perm_insertionSort candLe _).map _
    rw [hperm.nodup_iff]
    exact List.Nodup.sublist (select_paths_sublist tree) h
  · exact List.sorted_insertionSort candLe _

/-- C6 witness: the theorem applied to the concrete example tree. -/
theorem C6_witness :
    ((exampleTree.map TreeEntry.path).Nodup) ∧
    ((∀ c ∈ select_files exampleTree, ∃ e ∈ exampleTree, e.type = "blob" ∧
        _should_skip e.path = false ∧ _get_tier e.path e.size ≠ 99 ∧
        c = ⟨e.path, e.size, _get_tier e.path e.size⟩) ∧
      ((select_files exampleTree).map Candidate.path).Nodup ∧
      List.Sorted candLe (select_files exampleTree)) :=
  ⟨by decide, C6_select_files exampleTree (by decide)⟩

/- ══ Claim C2 ═══════════════════════════════════════════════════════ -/

set_option maxRecDepth 4000 in
/-- C2: evaluation of `build_context` at the failing input. Two tier-1
candidates `a` (huge body) and `b` (small body, present in `fileBodies`):
after hard-truncating `a`'s content to fit, the loop does NOT continue to
`b` — it appends the omission notice (counting `b`) and stops, because the
`break` after the tier ≤ 3 branch is unconditional. -/
theorem C2_truncated_then_stops :
    buildContextSections md0 [] c2bodies c2cands =
      ["=== REPOSITORY METADATA ===\nName: Unknown\nOwner: Unknown\nStars: 0\n",
       "=== DIRECTORY STRUCTURE ===\n\n",
       "=== FILE CONTENTS ===\n",
       truncFileBlock "a" (String.mk (List.replicate 199683 'x')),
       "... (1 additional files omitted due to context budget)\n"] ∧
    pyDictGet c2bodies "b" = some "hi" ∧ (⟨"b", 0, 1⟩ : Candidate).tier ≤ 3 := by
  refine ⟨?_, rfl, by norm_num⟩
  rw [buildContextSections_eq]
  have hmeta : _build_metadata_section md0 =
      "=== REPOSITORY METADATA ===\nName: Unknown\nOwner: Unknown\nStars: 0\n" := by
    decide
  have htree : ("=== DIRECTORY STRUCTURE ===\n" ++ format_tree [] ++ "\n") =
      "=== DIRECTORY STRUCTURE ===\n\n" := by decide
  rw [hmeta, htree]
  have hS0 : ("=== REPOSITORY METADATA ===\nName: Unknown\nOwner: Unknown\nStars: 0\n").length +
      ("=== DIRECTORY STRUCTURE ===\n\n").length +
      ("=== FILE CONTENTS ===\n").length = 117 := by decide
  rw [hS0]
  have hget : pyDictGet c2bodies (Candidate.path ⟨"a", 0, 1⟩) = some hugeBody := rfl
  have hover : 117 + (fileBlock (Candidate.path ⟨"a", 0, 1⟩)
      (truncate_file_content hugeBody MAX_FILE_LINES)).length > MAX_CONTEXT_CHARS := by
    rw [truncate_hugeBody, fileBlock_hugeBody_length,
      show (Candidate.path ⟨"a", 0, 1⟩) = "a" from rfl,
      show ("a" : String).length = 1 from rfl]
    norm_num [MAX_CONTEXT_CHARS]
  nth_rewrite 2 [show c2cands = ⟨"a", 0, 1⟩ :: [⟨"b", 0, 1⟩] from rfl]
  rw [ctxLoop_stop c2cands [⟨"b", 0, 1⟩] 117 hget hover]
  rw [truncate_hugeBody]
  have hif1 : (Candidate.tier ⟨"a", 0, 1⟩ ≤ 3) := by norm_num
  rw [if_pos hif1, if_pos (show ((MAX_CONTEXT_CHARS : Int) - (117 : Nat) - 200) > 500 by
    norm_num [MAX_CONTEXT_CHARS])]
  have htoNat : ((MAX_CONTEXT_CHARS : Int) - ((117 : Nat) : Int) - 200).toNat = 199683 := by
    decide
  rw [htoNat]
  have htake : pyTake hugeBody 199683 = String.mk (List.replicate 199683 'x') := by
    show String.mk ((List.replicate 200000 'x').take 199683) = _
    rw [List.take_replicate]
    norm_num
  rw [htake]
  have hrem : remainingCount c2cands c2bodies (Candidate.path ⟨"a", 0, 1⟩) = 1 := by decide
  rw [hrem]
  rfl

/- ══ Claim C9 ═══════════════════════════════════════════════════════ -/

set_option maxRecDepth 4000 in
/-- C9: evaluation of `build_context` at the failing input. Candidates
`a`, `b`, `c` (tier 5) with bodies; `a` is appended, `b` overflows the
budget: the notice says "2 additional files omitted" although only one
candidate (`c`) comes after `b` — the count ranges over all candidates
with bodies except the current one, including the already-included `a`. -/
theorem C9_notice_counts_included :
    buildContextSections md0 [] c9bodies c9cands =
      ["=== REPOSITORY METADATA ===\nName: Unknown\nOwner: Unknown\nStars: 0\n",
       "=== DIRECTORY STRUCTURE ===\n\n",
       "=== FILE CONTENTS ===\n",
       "--- a ---\nhi\n\n",
       "... (2 additional files omitted due to context budget)\n"] ∧
    ((c9cands.drop 2).filter (fun f => (pyDictGet c9bodies f.path).isSome)).length = 1 := by
  refine ⟨?_, by decide⟩
  rw [buildContextSections_eq]
  have hmeta : _build_metadata_section md0 =
      "=== REPOSITORY METADATA ===\nName: Unknown\nOwner: Unknown\nStars: 0\n" := by
    decide
  have htree : ("=== DIRECTORY STRUCTURE ===\n" ++ format_tree [] ++ "\n") =
      "=== DIRECTORY STRUCTURE ===\n\n" := by decide
  rw [hmeta, htree]
  have hS0 : ("=== REPOSITORY METADATA ===\nName: Unknown\nOwner: Unknown\nStars: 0\n").length +
      ("=== DIRECTORY STRUCTURE ===\n\n").length +
      ("=== FILE CONTENTS ===\n").length = 117 := by decide
  rw [hS0]
  nth_rewrite 2 [show c9cands = ⟨"a", 0, 5⟩ :: [(⟨"b", 0, 5⟩ : Candidate), ⟨"c", 0, 5⟩] from rfl]
  have hgetA : pyDictGet c9bodies (Candidate.path ⟨"a", 0, 5⟩) = some "hi" := rfl
  have hfitA : ¬ 117 + (fileBlock (Candidate.path ⟨"a", 0, 5⟩)
      (truncate_file_content "hi" MAX_FILE_LINES)).length > MAX_CONTEXT_CHARS := by decide
  rw [ctxLoop_fit c9cands [(⟨"b", 0, 5⟩ : Candidate), ⟨"c", 0, 5⟩] 117 hgetA hfitA]
  have hblockA : fileBlock (Candidate.path ⟨"a", 0, 5⟩)
      (truncate_file_content "hi" MAX_FILE_LINES) = "--- a ---\nhi\n\n" := by decide
  have hlenA : 117 + (fileBlock (Candidate.path ⟨"a", 0, 5⟩)
      (truncate_file_content "hi" MAX_FILE_LINES)).length = 131 := by decide
  rw [hlenA, hblockA]
  rw [show ([(⟨"b", 0, 5⟩ : Candidate), ⟨"c", 0, 5⟩] : List Candidate) =
    (⟨"b", 0, 5⟩ : Candidate) :: [(⟨"c", 0, 5⟩ : Candidate)] from rfl]
  have hgetB : pyDictGet c9bodies (Candidate.path ⟨"b", 0, 5⟩) = some hugeBody := rfl
  have hoverB : 131 + (fileBlock (Candidate.path ⟨"b", 0, 5⟩)
      (truncate_file_content hugeBody MAX_FILE_LINES)).length > MAX_CONTEXT_CHARS := by
    rw [truncate_hugeBody, fileBlock_hugeBody_length,
      show (Candidate.path ⟨"b", 0, 5⟩) = "b" from rfl,
      show ("b" : String).length = 1 from rfl]
    norm_num [MAX_CONTEXT_CHARS]
  rw [ctxLoop_stop c9cands [(⟨"c", 0, 5⟩ : Candidate)] 131 hgetB hoverB]
  rw [if_neg (show ¬ (Candidate.tier ⟨"b", 0, 5⟩ ≤ 3) by norm_num)]
  have hrem : remainingCount c9cands c9bodies (Candidate.path ⟨"b", 0, 5⟩) = 2 := by decide
  rw [hrem]
  rfl

/- ══ Claim C1 ═══════════════════════════════════════════════════════ -/

/-- C1 (amended): provided the metadata, directory-tree and file-contents
header sections together fit within `MAX_CONTEXT_CHARS` and every
candidate path is at most 163 characters long, the length of
`build_context`'s output is at most the budget plus a slack of one
omission-notice line, one separator newline per section, and the notice's
digits — bounded by `2·(number of candidates) + 64`. -/
theorem C1_budget_bound (md : Metadata) (tree : List TreeEntry)
    (fc : List (String × String)) (sel : List Candidate)
    (hfit : (_build_metadata_section md).length +
      ("=== DIRECTORY STRUCTURE ===\n" ++ format_tree tree ++ "\n").length +
      ("=== FILE CONTENTS ===\n" : String).length ≤ MAX_CONTEXT_CHARS)
    (hpaths : ∀ c ∈ sel, c.path.length ≤ 163) :
    (build_context md tree fc sel).length ≤
      MAX_CONTEXT_CHARS + 2 * sel.length + 64 := by
  obtain ⟨h1, h2⟩ := ctxLoop_bound sel fc sel _ hfit hpaths
  show (pyJoin "\n" (buildContextSections md tree fc sel)).length ≤ _
  rw [pyJoin_length, buildContextSections_eq, sumLen_append, List.length_append]
  rw [sumLen_cons, sumLen_cons, sumLen_cons, sumLen_nil]
  have hsep : ("\n" : String).length = 1 := rfl
  rw [hsep, Nat.one_mul]
  simp only [List.length_cons, List.length_nil]
  omega

/-- C1 counterexample: the metadata section is emitted with no budget
check, so a metadata dict with a 400000-character description drives the
output far beyond `MAX_CONTEXT_CHARS` plus any small fixed slack. -/
theorem C1_counterexample :
    (build_context mdBig [] [] []).length > MAX_CONTEXT_CHARS + 1000 := by
  have hmeta : _build_metadata_section mdBig =
      pyJoin "\n" ["=== REPOSITORY METADATA ===", "Name: Unknown", "Owner: Unknown",
        "Description: " ++ bigDesc, "Stars: 0", ""] := rfl
  have hbig : bigDesc.length = 400000 := by
    rw [show bigDesc.length = (List.replicate 400000 'x').length from rfl,
      List.length_replicate]
  have hdesc : ("Description: " ++ bigDesc).length = 400013 := by
    rw [string_length_append]
    rw [show ("Description: " : String).length = 13 from rfl, hbig]
  have hmetalen : (_build_metadata_section mdBig).length = 400080 := by
    rw [hmeta, pyJoin_length]
    rw [sumLen_cons, sumLen_cons, sumLen_cons, sumLen_cons, sumLen_cons, sumLen_cons,
      sumLen_nil, hdesc]
    rw [show ("=== REPOSITORY METADATA ===" : String).length = 27 from rfl,
      show ("Name: Unknown" : String).length = 13 from rfl,
      show ("Owner: Unknown" : String).length = 14 from rfl,
      show ("Stars: 0" : String).length = 8 from rfl,
      show ("" : String).length = 0 from rfl,
      show ("\n" : String).length = 1 from rfl]
    norm_num
  show (pyJoin "\n" (buildContextSections mdBig [] [] [])).length > _
  rw [pyJoin_length, buildContextSections_eq]
  rw [show ctxLoop [] [] []
      ((_build_metadata_section mdBig).length +
        ("=== DIRECTORY STRUCTURE ===\n" ++ format_tree [] ++ "\n").length +
        ("=== FILE CONTENTS ===\n" : String).length) = [] from rfl]
  rw [List.append_nil]
  rw [sumLen_cons, sumLen_cons, sumLen_cons, sumLen_nil, hmetalen]
  rw [show ("=== DIRECTORY STRUCTURE ===\n" ++ format_tree [] ++ "\n").length = 29
      from rfl,
    show ("=== FILE CONTENTS ===\n" : String).length = 22 from rfl,
    show ("\n" : String).length = 1 from rfl]
  norm_num [MAX_CONTEXT_CHARS]

/-- C1 witness: the amended bound applied to empty inputs. -/
theorem C1_witness :
    ((_build_metadata_section md0).length +
      ("=== DIRECTORY STRUCTURE ===\n" ++ format_tree [] ++ "\n").length +
      ("=== FILE CONTENTS ===\n" : String).length ≤ MAX_CONTEXT_CHARS) ∧
    (build_context md0 [] [] []).length ≤
      MAX_CONTEXT_CHARS + 2 * ([] : List Candidate).length + 64 :=
  ⟨by decide, C1_budget_bound md0 [] [] [] (by decide) (by simp)⟩

/- ══ Claim C8 ═══════════════════════════════════════════════════════ -/

/-- C8: `_validate_response` checks `summary`, then `technologies`, then
`structure`, raising the error naming the first missing/wrong-typed/blank
required field; `{summary: "", technologies: [], structure: "x"}` fails
naming `summary`; `{summary: "a", technologies: ["x", "", None, "y"],
structure: "b"}` succeeds with `technologies == ["x", "y"]` (falsy
elements dropped, the rest stringified) and trimmed summary/structure. -/
theorem C8_validate_order :
    (_validate_response [("summary", .str ""), ("technologies", PyVal.list []),
        ("structure", .str "x")] = .error (validateErrMsg "summary", 502)) ∧
    (_validate_response [("summary", .str "a"),
        ("technologies", PyVal.list [.str "x", .str "", PyVal.none, .str "y"]),
        ("structure", .str "b")] = .ok ("a", ["x", "y"], "b")) ∧
    ∀ d : List (String × PyVal),
      (isNonBlankStrV (pyGetV d "summary") = false →
        _validate_response d = .error (validateErrMsg "summary", 502)) ∧
      (isNonBlankStrV (pyGetV d "summary") = true →
        isListV (pyGetV d "technologies") = false →
        _validate_response d = .error (validateErrMsg "technologies", 502)) ∧
      (isNonBlankStrV (pyGetV d "summary") = true →
        isListV (pyGetV d "technologies") = true →
        isNonBlankStrV (pyGetV d "structure") = false →
        _validate_response d = .error (validateErrMsg "structure", 502)) ∧
      (∀ s ts st, pyGetV d "summary" = .str s → (pyStrip s).data.isEmpty = false →
        pyGetV d "technologies" = PyVal.list ts →
        pyGetV d "structure" = .str st → (pyStrip st).data.isEmpty = false →
        _validate_response d =
          .ok (pyStrip s, (ts.filter pyTruthy).map pyStrV, pyStrip st)) := by
  refine ⟨by decide, by decide, ?_⟩
  intro d
  refine ⟨?_, ?_, ?_, ?_⟩
  · intro h
    unfold _validate_response
    cases hs : pyGetV d "summary" with
    | str s =>
      rw [hs] at h
      simp only [isNonBlankStrV, Bool.not_eq_false'] at h
      simp [h]
    | none => rfl
    | int n => rfl
    | bool b => rfl
    | list xs => rfl
  · intro h1 h2
    unfold _validate_response
    cases hs : pyGetV d "summary" with
    | str s =>
      rw [hs] at h1
      simp only [isNonBlankStrV, Bool.not_eq_true'] at h1
      dsimp only
      rw [if_neg (by simp [h1])]
      cases ht : pyGetV d "technologies" with
      | list ts => rw [ht] at h2; simp [isListV] at h2
      | none => rfl
      | int n => rfl
      | bool b => rfl
      | str t => rfl
    | none => rw [hs] at h1; exact absurd h1 (by simp [isNonBlankStrV])
    | int n => rw [hs] at h1; exact absurd h1 (by simp [isNonBlankStrV])
    | bool b => rw [hs] at h1; exact absurd h1 (by simp [isNonBlankStrV])
    | list xs => rw [hs] at h1; exact absurd h1 (by simp [isNonBlankStrV])
  · intro h1 h2 h3
    unfold _validate_response
    cases hs : pyGetV d "summary" with
    | str s =>
      rw [hs] at h1
      simp only [isNonBlankStrV, Bool.not_eq_true'] at h1
      dsimp only
      rw [if_neg (by simp [h1])]
      cases ht : pyGetV d "technologies" with
      | list ts =>
        cases hst : pyGetV d "structure" with
        | str st =>
          rw [hst] at h3
          simp only [isNonBlankStrV, Bool.not_eq_false'] at h3
          simp [h3]
        | none => rfl
        | int n => rfl
        | bool b => rfl
        | list xs => rfl
      | none => rw [ht] at h2; exact absurd h2 (by simp [isListV])
      | int n => rw [ht] at h2; exact absurd h2 (by simp [isListV])
      | bool b => rw [ht] at h2; exact absurd h2 (by simp [isListV])
      | str t => rw [ht] at h2; exact absurd h2 (by simp [isListV])
    | none => rw [hs] at h1; exact absurd h1 (by simp [isNonBlankStrV])
    | int n => rw [hs] at h1; exact absurd h1 (by simp [isNonBlankStrV])
    | bool b => rw [hs] at h1; exact absurd h1 (by simp [isNonBlankStrV])
    | list xs => rw [hs] at h1; exact absurd h1 (by simp [isNonBlankStrV])
  · intro s ts st hs hsne ht hst hstne
    unfold _validate_response
    rw [hs, ht, hst]
    dsimp only
    rw [if_neg (by simp [hsne]), if_neg (by simp [hstne])]

/-- C8 witness: the ordering clauses applied to a dict missing `summary`. -/
theorem C8_witness :
    isNonBlankStrV (pyGetV [("technologies", PyVal.list [])] "summary") = false ∧
    _validate_response [("technologies", PyVal.list [])] =
      .error (validateErrMsg "summary", 502) :=
  ⟨by decide, (C8_validate_order.2.2 [("technologies", PyVal.list [])]).1 (by decide)⟩

/- ══ Claim C10 ══════════════════════════════════════════════════════ -/

/-- **C10** — counterexample. On `https://[github.com/octo/repo` the
netloc contains `[` without `]`, so `urlsplit` raises `ValueError`
(`Invalid IPv6 URL`) which `parse_github_url` does not catch: the call
terminates with an uncaught exception (`none`), not with a status-400
`GitHubFetchError`, although the claimed condition for a 400 error (the
hostname is not a GitHub one) holds. -/
theorem C10_counterexample :
    parse_github_url "https://[github.com/octo/repo" = none := rfl

/-- C10 (amended): on URLs that are pure ASCII after cleanup (so Python
Unicode `\w` and `.lower()` coincide with their ASCII restrictions) and on
which `urlsplit` does not raise its bracket `ValueError`, the cleanup
(strip whitespace, trailing slashes, one trailing `.git`) followed by
`parse_github_url` raises status 400 exactly when the parsed hostname is
neither `github.com` nor `www.github.com`, or the path has fewer than two
non-empty segments, or one of the first two segments has a character
outside word characters, dots and hyphens; otherwise it returns the first
two segments, ignoring any further ones. (Segments come from `urlparse`,
which removes tabs/CRs/newlines, so the `$`-before-final-newline regex
corner of `nameMatches` is unreachable and the membership check coincides
with `all isNameChar`.) -/
theorem C10_parse_github_url (url : String)
    (hraise : urlsplitRaises (ghCleanUrl url) = false)
    (hascii : (ghCleanUrl url).data.all (fun c => c.toNat ≤ 127) = true) :
    ((¬ ((pyUrlparts (ghCleanUrl url)).1 = some "github.com" ∨
          (pyUrlparts (ghCleanUrl url)).1 = some "www.github.com") ∨
      (ghSegments (ghCleanUrl url)).length < 2 ∨
      ((ghSegments (ghCleanUrl url)).getD 0 "").data.all isNameChar = false ∨
      ((ghSegments (ghCleanUrl url)).getD 1 "").data.all isNameChar = false) →
      ∃ msg, parse_github_url url = some (.error (msg, 400))) ∧
    (((pyUrlparts (ghCleanUrl url)).1 = some "github.com" ∨
        (pyUrlparts (ghCleanUrl url)).1 = some "www.github.com") →
      2 ≤ (ghSegments (ghCleanUrl url)).length →
      ((ghSegments (ghCleanUrl url)).getD 0 "").data.all isNameChar = true →
      ((ghSegments (ghCleanUrl url)).getD 1 "").data.all isNameChar = true →
      parse_github_url url =
        some (.ok ((ghSegments (ghCleanUrl url)).getD 0 "",
          (ghSegments (ghCleanUrl url)).getD 1 ""))) := by
  have hnr : ¬ (urlsplitRaises (ghCleanUrl url) = true) := by
    rw [hraise]
    exact Bool.false_ne_true
  constructor
  · intro h
    unfold parse_github_url
    rw [if_neg hnr]
    by_cases hhost : (pyUrlparts (ghCleanUrl url)).1 ≠ some "github.com" ∧
        (pyUrlparts (ghCleanUrl url)).1 ≠ some "www.github.com"
    · rw [if_pos hhost]
      exact ⟨_, rfl⟩
    · rw [if_neg hhost]
      by_cases hlen : (ghSegments (ghCleanUrl url)).length < 2
      · rw [if_pos hlen]
        exact ⟨_, rfl⟩
      · rw [if_neg hlen]
        have hbad : ((ghSegments (ghCleanUrl url)).getD 0 "").data.all isNameChar = false ∨
            ((ghSegments (ghCleanUrl url)).getD 1 "").data.all isNameChar = false := by
          rcases h with h | h | h | h
          · push_neg at h
            exact absurd h hhost
          · exact absurd h hlen
          · exact Or.inl h
          · exact Or.inr h
        have hm0 : (ghSegments (ghCleanUrl url)).getD 0 "" ∈ ghSegments (ghCleanUrl url) :=
          segs_getD_mem (by omega)
        have hm1 : (ghSegments (ghCleanUrl url)).getD 1 "" ∈ ghSegments (ghCleanUrl url) :=
          segs_getD_mem (by omega)
        obtain ⟨hne0, hnl0⟩ := ghSegments_props hm0
        obtain ⟨hne1, hnl1⟩ := ghSegments_props hm1
        rw [if_pos]
        · exact ⟨_, rfl⟩
        · rcases hbad with hb | hb
          · rw [Bool.or_eq_true, Bool.not_eq_true', nameMatches_eq_all hne0 hnl0]
            exact Or.inl hb
          · rw [Bool.or_eq_true]
            right
            rw [Bool.not_eq_true', nameMatches_eq_all hne1 hnl1]
            exact hb
  · intro hhost hlen hn0 hn1
    unfold parse_github_url
    rw [if_neg hnr]
    have hm0 : (ghSegments (ghCleanUrl url)).getD 0 "" ∈ ghSegments (ghCleanUrl url) :=
      segs_getD_mem (by omega)
    have hm1 : (ghSegments (ghCleanUrl url)).getD 1 "" ∈ ghSegments (ghCleanUrl url) :=
      segs_getD_mem (by omega)
    obtain ⟨hne0, hnl0⟩ := ghSegments_props hm0
    obtain ⟨hne1, hnl1⟩ := ghSegments_props hm1
    rw [if_neg (by
      rcases hhost with h | h
      · intro hc; exact hc.1 h
      · intro hc; exact hc.2 h)]
    rw [if_neg (by omega)]
    rw [if_neg (by
      rw [Bool.or_eq_true]
      push_neg
      constructor
      · rw [nameMatches_eq_all hne0 hnl0, hn0]
        decide
      · rw [nameMatches_eq_all hne1 hnl1, hn1]
        decide)]

/-- C10 witness: a URL with a `/tree/main` suffix parses to its first two
segments. -/
theorem C10_witness :
    (2 ≤ (ghSegments (ghCleanUrl "https://github.com/octo/repo/tree/main")).length) ∧
    parse_github_url "https://github.com/octo/repo/tree/main" =
      some (.ok
        ((ghSegments (ghCleanUrl "https://github.com/octo/repo/tree/main")).getD 0 "",
         (ghSegments (ghCleanUrl "https://github.com/octo/repo/tree/main")).getD 1 "")) ∧
    (ghSegments (ghCleanUrl "https://github.com/octo/repo/tree/main")).getD 0 "" = "octo" ∧
    (ghSegments (ghCleanUrl "https://github.com/octo/repo/tree/main")).getD 1 "" = "repo" :=
  ⟨by decide,
   (C10_parse_github_url "https://github.com/octo/repo/tree/main" (by decide)
     (by decide)).2 (Or.inl (by decide)) (by decide) (by decide) (by decide),
   by decide, by decide⟩

/- ══ Claim C3: support lemmas and theorems ══════════════════════════ -/

theorem matchFenceAt_none {l : List Char} (h : '`' ∉ l) : matchFenceAt l = none := by
  unfold matchFenceAt
  rw [if_neg]
  intro hc
  apply h
  have : '`' ∈ l.take 3 := by rw [hc]; simp
  exact List.mem_of_mem_take this

theorem searchFence_none {l : List Char} (h : '`' ∉ l) : searchFence l = none := by
  induction l with
  | nil => rfl
  | cons c rest ih =>
    show (match matchFenceAt (c :: rest) with
      | some inner => some inner
      | none => searchFence rest) = none
    rw [matchFenceAt_none h, ih (fun hm => h (List.mem_cons_of_mem c hm))]

theorem beq_cons_ne {c d : Char} {t t' : List Char} (h : c ≠ d) :
    ((c :: t) == (d :: t')) = false := by
  simp [List.instBEq, List.beq]
  intro hc
  exact absurd hc h

theorem closesFence_append_false {m rest : List Char} (hnb : '`' ∉ m)
    (hex : ∃ c ∈ m, isPyWs c = false) : closesFence (m ++ rest) = false := by
  induction m with
  | nil => simp at hex
  | cons c m' ih =>
    simp only [List.mem_cons, not_or] at hnb
    by_cases hws : isPyWs c
    · have hex' : ∃ x ∈ m', isPyWs x = false := by
        rcases hex with ⟨x, hx, hxw⟩
        rcases List.mem_cons.mp hx with hx | hx
        · rw [hx] at hxw; rw [hxw] at hws; exact absurd hws (by simp)
        · exact ⟨x, hx, hxw⟩
      show closesFence (c :: (m' ++ rest)) = false
      unfold closesFence
      rw [List.dropWhile_cons_of_pos hws]
      exact ih hnb.2 hex'
    · show closesFence (c :: (m' ++ rest)) = false
      unfold closesFence
      rw [List.dropWhile_cons_of_neg hws, List.take_succ_cons,
        beq_cons_ne (fun hc : c = '`' => hnb.1 hc.symm)]

theorem closesFence_nl_fence : closesFence ('\n' :: '`' :: '`' :: '`' :: []) = true := by
  decide

theorem takeInner_exact {l : List Char} (hnb : '`' ∉ l)
    (hlast : ∀ (h : l ≠ []), isPyWs (l.getLast h) = false) :
    takeInner (l ++ '\n' :: '`' :: '`' :: '`' :: []) = some l := by
  induction l with
  | nil =>
    show takeInner ('\n' :: '`' :: '`' :: '`' :: []) = some []
    unfold takeInner
    rw [if_pos closesFence_nl_fence]
  | cons c l' ih =>
    have hnb' : '`' ∉ l' := fun hm => hnb (List.mem_cons_of_mem c hm)
    have hlastmem : ∃ x ∈ c :: l', isPyWs x = false :=
      ⟨(c :: l').getLast (by simp), List.getLast_mem _, hlast (by simp)⟩
    have hclose : closesFence ((c :: l') ++ '\n' :: '`' :: '`' :: '`' :: []) = false :=
      closesFence_append_false hnb hlastmem
    show takeInner (c :: (l' ++ '\n' :: '`' :: '`' :: '`' :: [])) = some (c :: l')
    unfold takeInner
    rw [if_neg (by
      rw [show c :: (l' ++ '\n' :: '`' :: '`' :: '`' :: []) =
        (c :: l') ++ '\n' :: '`' :: '`' :: '`' :: [] from rfl, hclose]
      simp)]
    have hl' : ∀ (h : l' ≠ []), isPyWs (l'.getLast h) = false := by
      intro h
      have := hlast (by simp)
      rwa [List.getLast_cons h] at this
    rw [ih hnb' hl']
    rfl

theorem pyStripL_eq_self {l : List Char}
    (h1 : ∀ c, l.head? = some c → isPyWs c = false)
    (h2 : ∀ c, l.getLast? = some c → isPyWs c = false) : pyStripL l = l := by
  unfold pyStripL
  cases l with
  | nil => rfl
  | cons a as =>
    rw [List.dropWhile_cons_of_neg (by rw [h1 a rfl]; simp)]
    cases hrev : (a :: as).reverse with
    | nil => exact absurd hrev (by simp)
    | cons b bs =>
      have hb : (a :: as).getLast? = some b := by
        rw [List.getLast?_eq_head?_reverse, hrev]
        rfl
      have hdrop2 : List.dropWhile isPyWs (b :: bs) = b :: bs :=
        List.dropWhile_cons_of_neg (by rw [h2 b hb]; simp)
      rw [hdrop2, ← hrev, List.reverse_reverse]

theorem pyStrip_eq_of_data (s : String)
    (h1 : ∀ c, s.data.head? = some c → isPyWs c = false)
    (h2 : ∀ c, s.data.getLast? = some c → isPyWs c = false) : pyStrip s = s := by
  show String.mk (pyStripL s.data) = s
  rw [pyStripL_eq_self h1 h2]

theorem firstIdxOf_cons (c x : Char) (rest : List Char) :
    firstIdxOf c (x :: rest) =
      if x = c then some 0 else (firstIdxOf c rest).map (· + 1) := rfl

theorem lastIdxOf_cons (c x : Char) (rest : List Char) :
    lastIdxOf c (x :: rest) =
      match lastIdxOf c rest with
      | some i => some (i + 1)
      | none => if x = c then some 0 else none := rfl

theorem firstIdxOf_append_left {a : List Char} (c : Char) (b : List Char)
    (h : c ∉ a) : firstIdxOf c (a ++ b) = (firstIdxOf c b).map (· + a.length) := by
  induction a with
  | nil =>
    simp only [List.nil_append, List.length_nil]
    cases firstIdxOf c b <;> simp
  | cons x a' ih =>
    simp only [List.mem_cons, not_or] at h
    show firstIdxOf c (x :: (a' ++ b)) = _
    rw [firstIdxOf_cons, if_neg (fun hc => h.1 hc.symm), ih h.2]
    cases hfb : firstIdxOf c b with
    | none => rfl
    | some i => rfl

theorem firstIdxOf_cons_self (c : Char) (rest : List Char) :
    firstIdxOf c (c :: rest) = some 0 := by
  rw [firstIdxOf_cons, if_pos rfl]

theorem lastIdxOf_eq_none {c : Char} {b : List Char} (h : c ∉ b) :
    lastIdxOf c b = none := by
  induction b with
  | nil => rfl
  | cons x b' ih =>
    rw [lastIdxOf_cons, ih (fun hm => h (List.mem_cons_of_mem x hm))]
    exact if_neg (fun hc => h (List.mem_cons.mpr (Or.inl hc.symm)))

theorem lastIdxOf_append_right (c : Char) (a : List Char) {b : List Char}
    (h : c ∉ b) : lastIdxOf c (a ++ b) = lastIdxOf c a := by
  induction a with
  | nil => simpa using lastIdxOf_eq_none h
  | cons x a' ih =>
    show lastIdxOf c (x :: (a' ++ b)) = _
    rw [lastIdxOf_cons, lastIdxOf_cons, ih]

theorem lastIdxOf_getLast {l : List Char} {c : Char}
    (h : l.getLast? = some c) : lastIdxOf c l = some (l.length - 1) := by
  induction l with
  | nil => simp at h
  | cons x rest ih =>
    cases rest with
    | nil =>
      have hx : x = c := by simpa using h
      subst hx
      rw [lastIdxOf_cons]
      simp [lastIdxOf]
    | cons y ys =>
      have hlast : (y :: ys).getLast? = some c :=
        (List.getLast?_cons_cons).symm.trans h
      rw [lastIdxOf_cons, ih hlast]
      simp

theorem searchFence_cons (c : Char) (rest : List Char) :
    searchFence (c :: rest) =
      match matchFenceAt (c :: rest) with
      | some inner => some inner
      | none => searchFence rest := rfl

theorem pyLoads_empty : pyLoads "" = none := rfl

theorem extract_json_bare (s : String) (v : JsonValue) (hnb : '`' ∉ s.data)
    (hh : ∀ c, s.data.head? = some c → isPyWs c = false)
    (hl : ∀ c, s.data.getLast? = some c → isPyWs c = false)
    (hload : pyLoads s = some v) : _extract_json s = .ok v := by
  have hstrip : pyStrip s = s := pyStrip_eq_of_data s hh hl
  simp only [_extract_json, hstrip, searchFence_none hnb, hload]

theorem data_ne_nil_of_loads {s : String} {v : JsonValue}
    (hload : pyLoads s = some v) : s.data ≠ [] := by
  intro h0
  have hs : s = "" := by
    cases s with
    | mk d => rw [show d = [] from h0]
  rw [hs, pyLoads_empty] at hload
  exact Option.noConfusion hload

theorem extract_json_fenced (s : String) (v : JsonValue) (hnb : '`' ∉ s.data)
    (hh : ∀ c, s.data.head? = some c → isPyWs c = false)
    (hl : ∀ c, s.data.getLast? = some c → isPyWs c = false)
    (hload : pyLoads s = some v) :
    _extract_json ("```json\n" ++ s ++ "\n```") = .ok v := by
  have hne : s.data ≠ [] := data_ne_nil_of_loads hload
  have hT : ("```json\n" ++ s ++ "\n```").data =
      '`' :: '`' :: '`' :: 'j' :: 's' :: 'o' :: 'n' :: '\n' ::
        (s.data ++ '\n' :: '`' :: '`' :: '`' :: []) := rfl
  have hTlast : ("```json\n" ++ s ++ "\n```").data.getLast? = some '`' := by
    rw [show ("```json\n" ++ s ++ "\n```").data =
      ("```json\n" ++ s).data ++ "\n```".data from rfl]
    rw [List.getLast?_append_of_ne_nil _ (by decide : ("\n```" : String).data ≠ [])]
    rfl
  have hstrip : pyStrip ("```json\n" ++ s ++ "\n```") = ("```json\n" ++ s ++ "\n```") := by
    apply pyStrip_eq_of_data
    · intro c hc
      rw [hT] at hc
      injection hc with h8
      rw [← h8]
      decide
    · intro c hc
      rw [hTlast] at hc
      have hc8 : '`' = c := by simpa using hc
      rw [← hc8]
      decide
  have hlastG : ∀ (h : s.data ≠ []), isPyWs (s.data.getLast h) = false := by
    intro h
    exact hl _ (List.getLast?_eq_getLast s.data h)
  have hinner : takeInner (s.data ++ '\n' :: '`' :: '`' :: '`' :: []) = some s.data :=
    takeInner_exact hnb hlastG
  have hmatch : matchFenceAt (("```json\n" ++ s ++ "\n```")).data = some s.data := by
    rw [hT]
    unfold matchFenceAt
    rw [if_pos (show ('`' :: '`' :: '`' :: 'j' :: 's' :: 'o' :: 'n' :: '\n' ::
      (s.data ++ '\n' :: '`' :: '`' :: '`' :: [])).take 3 = ['`', '`', '`'] from rfl)]
    rw [if_pos (show (('`' :: '`' :: '`' :: 'j' :: 's' :: 'o' :: 'n' :: '\n' ::
      (s.data ++ '\n' :: '`' :: '`' :: '`' :: [])).drop 3).take 4 = ['j', 's', 'o', 'n']
      from rfl)]
    show takeInner (List.dropWhile isPyWs ('\n' ::
      (s.data ++ '\n' :: '`' :: '`' :: '`' :: []))) = some s.data
    rw [List.dropWhile_cons_of_pos (by decide : (isPyWs '\n' : Prop))]
    cases hd : s.data with
    | nil => exact absurd hd hne
    | cons c cs =>
      have hcw : isPyWs c = false := hh c (by rw [hd]; rfl)
      rw [List.cons_append, List.dropWhile_cons, hcw,
        if_neg (by simp : ¬(false = true)), ← List.cons_append, ← hd]
      exact hinner
  have hsearch : searchFence (("```json\n" ++ s ++ "\n```")).data = some s.data := by
    rw [hT] at hmatch ⊢
    rw [searchFence_cons, hmatch]
  have hstrips : pyStrip (String.mk s.data) = s := by
    rw [show String.mk s.data = s from rfl]
    exact pyStrip_eq_of_data s hh hl
  simp only [_extract_json, hstrip, hsearch, hstrips, hload]

theorem firstIdxOf_head {l : List Char} {c : Char} (h : l.head? = some c) (m : List Char) :
    firstIdxOf c (l ++ m) = some 0 := by
  cases l with
  | nil => simp at h
  | cons a t =>
    have ha : a = c := by injection h
    rw [List.cons_append, ha, firstIdxOf_cons_self]

theorem two_le_length_of_head_getLast {l : List Char} {a b : Char}
    (hh : l.head? = some a) (hlast : l.getLast? = some b) (hne : a ≠ b) :
    2 ≤ l.length := by
  cases l with
  | nil => simp at hh
  | cons x t =>
    cases t with
    | nil =>
      injection hh with h1
      rw [show ([x] : List Char).getLast? = some x from rfl] at hlast
      injection hlast with h2
      exact absurd (h1.symm.trans h2) hne
    | cons y u =>
      simp only [List.length_cons]
      omega

theorem braceSlice_prose {p1 s p2 : List Char}
    (hp1 : '{' ∉ p1) (hp2 : '}' ∉ p2)
    (hhead : s.head? = some '{') (hlast : s.getLast? = some '}') :
    braceSlice (p1 ++ (s ++ p2)) = some s := by
  have hne : s ≠ [] := by intro h0; rw [h0] at hhead; simp at hhead
  have hslen : 2 ≤ s.length := two_le_length_of_head_getLast hhead hlast (by decide)
  have hfirst : firstIdxOf '{' (p1 ++ (s ++ p2)) = some p1.length := by
    rw [firstIdxOf_append_left '{' (s ++ p2) hp1, firstIdxOf_head hhead p2]
    simp
  have hgl : (p1 ++ s).getLast? = some '}' := by
    rw [List.getLast?_append_of_ne_nil _ hne]
    exact hlast
  have hlastidx : lastIdxOf '}' (p1 ++ (s ++ p2)) = some (p1.length + s.length - 1) := by
    rw [← List.append_assoc, lastIdxOf_append_right '}' (p1 ++ s) hp2,
      lastIdxOf_getLast hgl, List.length_append]
  unfold braceSlice
  rw [hfirst, hlastidx]
  show (if p1.length < p1.length + s.length - 1 then
    some (((p1 ++ (s ++ p2)).drop p1.length).take (p1.length + s.length - 1 + 1 - p1.length))
    else none) = some s
  rw [if_pos (by omega : p1.length < p1.length + s.length - 1)]
  congr 1
  rw [List.drop_left]
  rw [show p1.length + s.length - 1 + 1 - p1.length = s.length from by omega]
  exact List.take_left s p2

theorem extract_json_prose (p1 s p2 : String) (v : JsonValue)
    (hnb : '`' ∉ (p1 ++ s ++ p2).data)
    (hh : ∀ c, (p1 ++ s ++ p2).data.head? = some c → isPyWs c = false)
    (hl : ∀ c, (p1 ++ s ++ p2).data.getLast? = some c → isPyWs c = false)
    (hwhole : pyLoads (p1 ++ s ++ p2) = none)
    (hp1 : '{' ∉ p1.data) (hp2 : '}' ∉ p2.data)
    (hhead : s.data.head? = some '{') (hlast : s.data.getLast? = some '}')
    (hload : pyLoads s = some v) :
    _extract_json (p1 ++ s ++ p2) = .ok v := by
  have hstrip : pyStrip (p1 ++ s ++ p2) = (p1 ++ s ++ p2) := pyStrip_eq_of_data _ hh hl
  have hdata : (p1 ++ s ++ p2).data = p1.data ++ (s.data ++ p2.data) := by
    rw [show (p1 ++ s ++ p2).data = (p1.data ++ s.data) ++ p2.data from rfl,
      List.append_assoc]
  have hbrace : braceSlice (p1 ++ s ++ p2).data = some s.data := by
    rw [hdata]
    exact braceSlice_prose hp1 hp2 hhead hlast
  have hmk : pyLoads (String.mk s.data) = some v := by
    rw [show String.mk s.data = s from rfl]
    exact hload
  simp only [_extract_json, hstrip, searchFence_none hnb, hwhole, hbrace, hmk]

theorem extract_json_fail (t : String)
    (hnb : '`' ∉ (pyStrip t).data)
    (hwhole : pyLoads (pyStrip t) = none)
    (hsub : ∀ sub, braceSlice (pyStrip t).data = some sub →
      pyLoads (String.mk sub) = none) :
    _extract_json t = .error (PARSE_ERR_MSG, 502) := by
  cases hb : braceSlice (pyStrip t).data with
  | none => simp only [_extract_json, searchFence_none hnb, hwhole, hb]
  | some sub => simp only [_extract_json, searchFence_none hnb, hwhole, hb, hsub sub hb]

theorem opt_char_aux {o : Option Char} {d : Char} (hd : o = some d)
    (hw : isPyWs d = false) : ∀ c, o = some c → isPyWs c = false := by
  intro c hc
  rw [hd] at hc
  injection hc with h
  rw [← h]
  exact hw

theorem brace_none_aux {l : List Char} (h : braceSlice l = none) :
    ∀ sub, braceSlice l = some sub → pyLoads (String.mk sub) = none := by
  intro sub hs
  rw [h] at hs
  exact Option.noConfusion hs

/-- **C3** — counterexample. The text `The {result} is {"a": 1}` is a
well-formed JSON object surrounded by prose (the substring starting at its
own opening brace parses, as the first conjunct shows), yet `_extract_json`
raises the ParseError: the first-`\x7b`-to-last-`\x7d` fallback grabs the prose
brace of `\x7bresult\x7d`, so no recovery attempt succeeds. -/
theorem C3_counterexample :
    pyLoads "\x7b\"a\": 1\x7d" = some (JsonValue.obj [("a", JsonValue.num "1")]) ∧
    _extract_json "The \x7bresult\x7d is \x7b\"a\": 1\x7d" =
      .error (PARSE_ERR_MSG, 502) :=
  ⟨rfl, rfl⟩

/-- **C3** (amended). `_extract_json` round-trips on a restricted domain:
a JSON text that is stripped, backtick-free and parses is recovered (1) bare,
(2) wrapped in a ```` ```json ```` fence, and (3) surrounded by prose provided
the prose before it has no `\x7b` and the prose after it no `\x7d`; and (4) if no
fence is found, the whole stripped text does not parse and neither does the
first-`\x7b`-to-last-`\x7d` slice, the result is the ParseError with status 502.
Unrestricted prose breaks the round-trip (see the counterexample), because the
fence is searched for anywhere in the text and the brace slice is cut at the
outermost braces of the whole text, prose included. -/
theorem C3_extract_json :
    (∀ s v, '`' ∉ s.data →
      (∀ c, s.data.head? = some c → isPyWs c = false) →
      (∀ c, s.data.getLast? = some c → isPyWs c = false) →
      pyLoads s = some v → _extract_json s = .ok v) ∧
    (∀ s v, '`' ∉ s.data →
      (∀ c, s.data.head? = some c → isPyWs c = false) →
      (∀ c, s.data.getLast? = some c → isPyWs c = false) →
      pyLoads s = some v →
      _extract_json ("```json\n" ++ s ++ "\n```") = .ok v) ∧
    (∀ p1 s p2 v, '`' ∉ (p1 ++ s ++ p2).data →
      (∀ c, (p1 ++ s ++ p2).data.head? = some c → isPyWs c = false) →
      (∀ c, (p1 ++ s ++ p2).data.getLast? = some c → isPyWs c = false) →
      pyLoads (p1 ++ s ++ p2) = none →
      '\x7b' ∉ p1.data → '\x7d' ∉ p2.data →
      s.data.head? = some '\x7b' → s.data.getLast? = some '\x7d' →
      pyLoads s = some v → _extract_json (p1 ++ s ++ p2) = .ok v) ∧
    (∀ t, '`' ∉ (pyStrip t).data → pyLoads (pyStrip t) = none →
      (∀ sub, braceSlice (pyStrip t).data = some sub →
        pyLoads (String.mk sub) = none) →
      _extract_json t = .error (PARSE_ERR_MSG, 502)) :=
  ⟨extract_json_bare, extract_json_fenced, extract_json_prose, extract_json_fail⟩

/-- **C3** — witness: each conjunct of the amended theorem at a concrete
input. -/
theorem C3_witness :
    _extract_json "\x7b\"a\": 1\x7d" =
      .ok (JsonValue.obj [("a", JsonValue.num "1")]) ∧
    _extract_json ("```json\n" ++ "\x7b\"a\": 1\x7d" ++ "\n```") =
      .ok (JsonValue.obj [("a", JsonValue.num "1")]) ∧
    _extract_json ("The answer: " ++ "\x7b\"a\": 1\x7d" ++ " end.") =
      .ok (JsonValue.obj [("a", JsonValue.num "1")]) ∧
    _extract_json "no json here" = .error (PARSE_ERR_MSG, 502) :=
  ⟨C3_extract_json.1 _ _ (by decide) (opt_char_aux rfl (by decide))
      (opt_char_aux rfl (by decide)) rfl,
   C3_extract_json.2.1 _ _ (by decide) (opt_char_aux rfl (by decide))
      (opt_char_aux rfl (by decide)) rfl,
   C3_extract_json.2.2.1 "The answer: " "\x7b\"a\": 1\x7d" " end." _
      (by decide) (opt_char_aux rfl (by decide)) (opt_char_aux rfl (by decide))
      rfl (by decide) (by decide) rfl rfl rfl,
   C3_extract_json.2.2.2 "no json here" (by decide) rfl (brace_none_aux rfl)⟩
